import Mathlib

/-!
Shallow embedding of the protocol-translation core of claude-code-router:
the upstream HTTP request engine (packages/core/src/utils/request.ts), the
Gemini request builder and response translator
(packages/core/src/utils/gemini.util.ts), the OpenAI transformer
(packages/core/src/transformer/openai.transformer.ts), and the
OpenAICompatible / Gemini transformer classes.

JavaScript values passed between the transformers are modelled by the `Json`
inductive; `undefined` is conflated with JSON `null` except where a comment
notes otherwise.  JavaScript numbers are modelled by `Rat`; `Math.random()`
draws and `Date.now()` timestamps are threaded as explicit parameters.
Theorems named `C1_...` .. `C10_...` settle the specification claims.
-/

/-- JSON values, used to model the JavaScript data handled by the router.
Object fields keep insertion order, as JavaScript objects do. -/
inductive Json where
  | null : Json
  | bool (b : Bool) : Json
  | num (q : ℚ) : Json
  | str (s : String) : Json
  | arr (elems : List Json) : Json
  | obj (fields : List (String × Json)) : Json

/-- Character-list prefix test (avoids relying on library string search). -/
def startsWithChars : List Char → List Char → Bool
  | [], _ => true
  | _ :: _, [] => false
  | c :: cs, d :: ds => c == d && startsWithChars cs ds

/-- Character-list substring test. -/
def hasSubChars (pat : List Char) : List Char → Bool
  | [] => pat.isEmpty
  | c :: cs => startsWithChars pat (c :: cs) || hasSubChars pat cs

/-- Model of JavaScript `String.prototype.includes(pat)` on `s`. -/
def strContains (s pat : String) : Bool := hasSubChars pat.data s.data

/-- Model of JavaScript `toLowerCase` (ASCII-faithful). -/
def strLower (s : String) : String := String.mk (s.data.map Char.toLower)

/-- Model of JavaScript `toUpperCase` (ASCII-faithful). -/
def strUpper (s : String) : String := String.mk (s.data.map Char.toUpper)

/-- Model of JavaScript `s.substring(0, n)` (first `n` characters). -/
def strTake (s : String) (n : Nat) : String := String.mk (s.data.take n)

/-- The characters of `s` after the first `n` (used only in theorems). -/
def strDrop (s : String) (n : Nat) : String := String.mk (s.data.drop n)

/-- Field lookup on a JSON object.  A missing key, or a lookup on a
non-object, yields `Json.null` (modelling JavaScript `undefined`). -/
def jGet (j : Json) (key : String) : Json :=
  match j with
  | .obj fields =>
    match fields.find? (fun f => f.1 == key) with
    | some f => f.2
    | none => Json.null
  | _ => Json.null

/-- JavaScript truthiness of a JSON value. -/
def jTruthy : Json → Bool
  | .null => false
  | .bool b => b
  | .num q => !(q == 0)
  | .str s => !(s == "")
  | .arr _ => true
  | .obj _ => true

/-- Model of `Object.keys` (own enumerable keys of an object; on non-objects
the claims never evaluate it, so non-objects yield `[]`). -/
def jKeys : Json → List String
  | .obj fields => fields.map (·.1)
  | _ => []

/-- Model of `Object.entries` (on non-objects the claims never evaluate it,
so non-objects yield `[]`). -/
def jEntries : Json → List (String × Json)
  | .obj fields => fields
  | _ => []

/-- Assign a field of an object, keeping the key position when it exists and
appending otherwise, as JavaScript property assignment does. -/
def setFieldIn (fields : List (String × Json)) (key : String) (v : Json) :
    List (String × Json) :=
  match fields with
  | [] => [(key, v)]
  | f :: rest => if f.1 == key then (key, v) :: rest else f :: setFieldIn rest key v

/-- Model of JavaScript property assignment `j[key] = v` (a no-op on
primitives, as in JavaScript). -/
def jSet (j : Json) (key : String) (v : Json) : Json :=
  match j with
  | .obj fields => .obj (setFieldIn fields key v)
  | _ => j

/-- Model of JavaScript `delete j[key]` (preserves the order of the other
keys; a no-op on non-objects). -/
def jDelete (j : Json) (key : String) : Json :=
  match j with
  | .obj fields => .obj (fields.filter (fun f => !(f.1 == key)))
  | _ => j

mutual
/-- Whether a key named `key` occurs anywhere in a JSON value. -/
def jContainsKey (key : String) : Json → Bool
  | .arr elems => jContainsKeyList key elems
  | .obj fields => jContainsKeyFields key fields
  | _ => false

/-- Whether a key named `key` occurs anywhere in a list of JSON values. -/
def jContainsKeyList (key : String) : List Json → Bool
  | [] => false
  | x :: xs => jContainsKey key x || jContainsKeyList key xs

/-- Whether a key named `key` occurs in, or anywhere below, object fields. -/
def jContainsKeyFields (key : String) : List (String × Json) → Bool
  | [] => false
  | f :: fs => f.1 == key || jContainsKey key f.2 || jContainsKeyFields key fs
end

/-! ## HTTP request engine (packages/core/src/utils/request.ts) -/

/-- request.ts `INITIAL_BACKOFF_MS = 1000`. -/
def INITIAL_BACKOFF_MS : ℚ := 1000

/-- request.ts `MAX_RETRIES = 2` (3 attempts total). -/
def MAX_RETRIES : ℕ := 2

/-- The `retry-after` response header as seen by `parseRetryAfter`,
abstracted past string parsing: the header is absent, parses as integer
seconds, parses as an HTTP date (represented by `date - Date.now()` in
milliseconds), or parses as neither. -/
inductive RetryAfterValue where
  | absent
  | seconds (n : ℤ)
  | httpDate (deltaMs : ℤ)
  | unparseable

/-- request.ts `parseRetryAfter`: integer seconds and HTTP-date forms, each
floored at `INITIAL_BACKOFF_MS`; `null` otherwise. -/
def parseRetryAfter : RetryAfterValue → Option ℚ
  | .absent => none
  | .seconds n => some (max INITIAL_BACKOFF_MS ((n : ℚ) * 1000))
  | .httpDate d => some (max INITIAL_BACKOFF_MS (d : ℚ))
  | .unparseable => none

/-- One entry of `error.details[]` in a provider error payload.
`retryDelaySec` is `parseFloat` of the `"<float>s"` string, abstracted to
its rational value (`none` models an absent field or a NaN parse). -/
structure BodyDetail where
  retryDelaySec : Option ℚ
  quotaId : Option String

/-- A response body at the granularity `parseBodyRetryInfo` inspects it:
`none` models a body whose JSON parse fails or whose `error.details` is
missing or not an array. -/
abbrev GeminiErrorBody := Option (List BodyDetail)

/-- Result of request.ts `parseBodyRetryInfo`. -/
structure BodyRetryInfo where
  delayMs : Option ℚ
  isDailyQuota : Bool

/-- request.ts `parseBodyRetryInfo`: walk `error.details[]`; a parsed
positive `retryDelay` yields `max(INITIAL_BACKOFF_MS, seconds*1000)` (the
last such entry wins); any `metadata.quotaId` containing `"PerDay"` marks a
daily quota.  This is the body of the `for (const detail of details)` loop. -/
def bodyRetryStep (acc : BodyRetryInfo) (d : BodyDetail) : BodyRetryInfo :=
  let acc1 :=
    match d.retryDelaySec with
    | some s =>
      if 0 < s then { acc with delayMs := some (max INITIAL_BACKOFF_MS (s * 1000)) }
      else acc
    | none => acc
  match d.quotaId with
  | some q => if strContains q "PerDay" then { acc1 with isDailyQuota := true } else acc1
  | none => acc1

/-- request.ts `parseBodyRetryInfo` (see `bodyRetryStep` for the loop body). -/
def parseBodyRetryInfo (body : GeminiErrorBody) : BodyRetryInfo :=
  match body with
  | none => ⟨none, false⟩
  | some details => details.foldl bodyRetryStep ⟨none, false⟩

/-- JavaScript `Math.round` (round half up). -/
def jsRound (q : ℚ) : ℤ := ⌊q + 1/2⌋

/-- request.ts `withJitter`, with the `Math.random()` draw made explicit as
`rand` (a value in `[0,1)`). -/
def withJitter (delayMs : ℚ) (rand : ℚ) : ℤ :=
  jsRound (delayMs + delayMs * (1/10 + rand * (2/10)))

/-- Backoff base selection of the retry loop (request.ts lines 157-163):
`headerRetryMs ?? bodyRetryDelayMs ?? INITIAL_BACKOFF_MS * 2^(attempt-1)`. -/
def chooseBaseBackoff (headerRetryMs bodyRetryDelayMs : Option ℚ) (attempt : ℕ) : ℚ :=
  match headerRetryMs with
  | some h => h
  | none =>
    match bodyRetryDelayMs with
    | some b => b
    | none => INITIAL_BACKOFF_MS * 2 ^ (attempt - 1)

/-- An upstream response at the granularity the retry loop inspects it. -/
structure EngResponse where
  status : ℕ
  retryAfter : RetryAfterValue
  body : GeminiErrorBody

/-- The result of one `fetch` attempt.  `netErr retryable` covers both
`isRetryableNetworkError` errors and the engine's own connect-timeout
`AbortError` (`retryable = true`), and non-retryable throws
(`retryable = false`).  Caller-initiated aborts are outside the claims and
are not modelled. -/
inductive FetchOutcome where
  | netErr (retryable : Bool)
  | resp (r : EngResponse)

/-- What `sendUnifiedRequest` finally does. `noMoreOutcomes` only marks that
the modelled attempt script was exhausted (not a behaviour of the code). -/
inductive EngineOutcome where
  | returned (status : ℕ) (body : GeminiErrorBody)
  | raised
  | noMoreOutcomes

/-- A run of the engine: its outcome, the number of fetch attempts actually
performed, and for every retry the pair (baseBackoff, slept milliseconds). -/
structure EngineRun where
  outcome : EngineOutcome
  fetches : ℕ
  sleeps : List (ℚ × ℤ)

/-- `response.ok` (status in 200..299). -/
def respOk (r : EngResponse) : Bool := decide (200 ≤ r.status) && decide (r.status < 300)

/-- request.ts `isRetryableStatus`: 429 or 500..504. -/
def isRetryableStatus (status : ℕ) : Bool :=
  status == 429 || (decide (500 ≤ status) && decide (status ≤ 504))

/-- The retry loop of request.ts `sendUnifiedRequest` (lines 155-267), as a
recursion over the script of per-attempt fetch outcomes.  `rands` supplies
one `Math.random()` draw per backoff sleep.  `lastResp` and
`bodyRetryDelayMs` mirror the loop variables `lastResponse` and
`bodyRetryDelayMs` at the top of an iteration. -/
def engineLoop (stream : Bool) (attempt : ℕ) (lastResp : Option EngResponse)
    (bodyRetryDelayMs : Option ℚ) (outcomes : List FetchOutcome) (rands : List ℚ) :
    EngineRun :=
  let sleeps : List (ℚ × ℤ) :=
    if attempt = 0 then []
    else
      let headerRetryMs :=
        match lastResp with
        | some r => parseRetryAfter r.retryAfter
        | none => none
      let base := chooseBaseBackoff headerRetryMs bodyRetryDelayMs attempt
      [(base, withJitter base (rands.headD 0))]
  let rands1 := if attempt = 0 then rands else rands.tail
  match outcomes with
  | [] => ⟨.noMoreOutcomes, 0, sleeps⟩
  | o :: rest =>
    match o with
    | .netErr retryable =>
      if retryable = true ∧ attempt < MAX_RETRIES then
        let sub := engineLoop stream (attempt + 1) none none rest rands1
        ⟨sub.outcome, sub.fetches + 1, sleeps ++ sub.sleeps⟩
      else ⟨.raised, 1, sleeps⟩
    | .resp r =>
      if respOk r || stream then ⟨.returned r.status r.body, 1, sleeps⟩
      else if !isRetryableStatus r.status then ⟨.returned r.status r.body, 1, sleeps⟩
      else if attempt = MAX_RETRIES then ⟨.returned r.status r.body, 1, sleeps⟩
      else
        let info := parseBodyRetryInfo r.body
        if info.isDailyQuota then ⟨.returned r.status r.body, 1, sleeps⟩
        else
          let sub := engineLoop stream (attempt + 1) (some r) info.delayMs rest rands1
          ⟨sub.outcome, sub.fetches + 1, sleeps ++ sub.sleeps⟩

/-- request.ts `sendUnifiedRequest`, starting the retry loop at attempt 0
with no previous response and no body-derived delay. -/
def sendUnifiedRequest (stream : Bool) (outcomes : List FetchOutcome) (rands : List ℚ) :
    EngineRun :=
  engineLoop stream 0 none none outcomes rands

/-! ## Gemini schema utilities (packages/core/src/utils/gemini.util.ts) -/

/-- The values of the gemini.util.ts `Type` enum. -/
def geminiTypeValues : List String :=
  ["TYPE_UNSPECIFIED", "STRING", "NUMBER", "INTEGER", "BOOLEAN", "ARRAY", "OBJECT", "NULL"]

/-- Uppercase a type name, mapping names outside the `Type` enum to
`TYPE_UNSPECIFIED` (gemini.util.ts lines 93-96 and 170-173). -/
def mapTypeName (s : String) : String :=
  if geminiTypeValues.contains (strUpper s) then strUpper s else "TYPE_UNSPECIFIED"

/-- Whether a JSON value is the string "null" (the `type` comparisons of
`flattenTypeArrayToAnyOf` and `processJsonSchema`). -/
def isNullTypeJson : Json → Bool
  | .str s => s == "null"
  | _ => false

/-- JavaScript `toUpperCase` on a schema `type` entry; a non-string raises a
TypeError, modelled as `Except.error`. -/
def jsonToUpperType : Json → Except String String
  | .str s => .ok (mapTypeName s)
  | _ => .error "TypeError: toUpperCase is not a function"

/-- gemini.util.ts `flattenTypeArrayToAnyOf`: record `nullable` when the
type list contains "null"; a single remaining type becomes a scalar `type`,
otherwise each becomes an `anyOf` branch. -/
def flattenTypeArrayToAnyOf (typeList : List Json) (schema : Json) : Except String Json := do
  let s1 := if typeList.any isNullTypeJson then jSet schema "nullable" (Json.bool true) else schema
  let rest := typeList.filter (fun j => !isNullTypeJson j)
  match rest with
  | [j] => do
    let u ← jsonToUpperType j
    pure (jSet s1 "type" (Json.str u))
  | _ => do
    let elems ← rest.mapM (fun j => do
      let u ← jsonToUpperType j
      pure (Json.obj [("type", Json.str u)]))
    pure (jSet s1 "anyOf" (Json.arr elems))


mutual
/-- gemini.util.ts `processJsonSchema`, with an explicit recursion bound.
The bound only serves Lean's termination checker; the wrapper
`processJsonSchema` passes a bound that dominates the recursion depth of
every input, so the `"recursion bound"` error is unreachable.  The function
throws (as `Except.error`) when `type` and `anyOf` are both populated and on
a lone `type: "null"`.  It first collapses a two-element `anyOf` with a null
branch into `nullable`, then flattens a `type` array via
`flattenTypeArrayToAnyOf`, then copies the remaining entries with recursion
into `items`, `anyOf` and `properties`, dropping `additionalProperties`. -/
def processJsonSchemaFuel : ℕ → Json → Except String Json
  | 0, _ => .error "model recursion bound exhausted"
  | fuel + 1, js =>
    if jTruthy (jGet js "type") && jTruthy (jGet js "anyOf") then
      .error "type and anyOf cannot be both populated."
    else
      let pair : Option Json :=
        match jGet js "anyOf" with
        | Json.arr [a, b] =>
          if jTruthy a && isNullTypeJson (jGet a "type") then some b
          else if jTruthy b && isNullTypeJson (jGet b "type") then some a
          else none
        | _ => none
      let g0 : Json :=
        match pair with
        | some _ => Json.obj [("nullable", Json.bool true)]
        | none => Json.obj []
      let js1 := pair.getD js
      match jGet js1 "type" with
      | Json.arr tl =>
        match flattenTypeArrayToAnyOf tl g0 with
        | .error e => .error e
        | .ok g1 => processEntriesFuel fuel (jEntries js1) g1
      | _ => processEntriesFuel fuel (jEntries js1) g0

/-- The `Object.entries(_jsonSchema)` loop of `processJsonSchema`,
accumulating into the fresh `genAISchema` object `g`.  Entries whose value
is null (or undefined) are skipped; `type` entries are uppercase-mapped
(throwing on the lone string "null" and on non-strings); `items`, `anyOf`
and `properties` recurse; `additionalProperties` is dropped; everything
else is copied verbatim. -/
def processEntriesFuel : ℕ → List (String × Json) → Json → Except String Json
  | 0, _, _ => .error "model recursion bound exhausted"
  | fuel + 1, entries, g =>
    match entries with
    | [] => .ok g
    | (k, v) :: rest =>
      match v with
      | Json.null => processEntriesFuel fuel rest g
      | _ =>
        if k == "type" then
          match v with
          | Json.str s =>
            if s == "null" then
              .error "type: null can not be the only possible type for the field."
            else processEntriesFuel fuel rest (jSet g "type" (Json.str (mapTypeName s)))
          | Json.arr _ => processEntriesFuel fuel rest g
          | _ => .error "TypeError: toUpperCase is not a function"
        else if k == "items" then
          match processJsonSchemaFuel fuel v with
          | .error e => .error e
          | .ok v1 => processEntriesFuel fuel rest (jSet g "items" v1)
        else if k == "anyOf" then
          match v with
          | Json.arr elems =>
            match processAnyOfListFuel fuel elems g with
            | .error e => .error e
            | .ok gl => processEntriesFuel fuel rest (jSet gl.1 "anyOf" (Json.arr gl.2))
          | _ => .error "TypeError: fieldValue is not iterable"
        else if k == "properties" then
          match processPropsFuel fuel (jEntries v) with
          | .error e => .error e
          | .ok props => processEntriesFuel fuel rest (jSet g "properties" (Json.obj props))
        else if k == "additionalProperties" then processEntriesFuel fuel rest g
        else processEntriesFuel fuel rest (jSet g k v)

/-- The `anyOf` list loop of `processJsonSchema`: null branches set
`nullable` on the accumulator object, other branches are recursively
processed and collected. -/
def processAnyOfListFuel : ℕ → List Json → Json → Except String (Json × List Json)
  | 0, _, _ => .error "model recursion bound exhausted"
  | fuel + 1, items, g =>
    match items with
    | [] => .ok (g, [])
    | item :: rest =>
      if isNullTypeJson (jGet item "type") then
        processAnyOfListFuel fuel rest (jSet g "nullable" (Json.bool true))
      else
        match processJsonSchemaFuel fuel item with
        | .error e => .error e
        | .ok item1 =>
          match processAnyOfListFuel fuel rest g with
          | .error e => .error e
          | .ok gl => .ok (gl.1, item1 :: gl.2)

/-- The `properties` map loop of `processJsonSchema`. -/
def processPropsFuel : ℕ → List (String × Json) → Except String (List (String × Json))
  | 0, _ => .error "model recursion bound exhausted"
  | fuel + 1, props =>
    match props with
    | [] => .ok []
    | (k, v) :: rest =>
      match processJsonSchemaFuel fuel v with
      | .error e => .error e
      | .ok v1 =>
        match processPropsFuel fuel rest with
        | .error e => .error e
        | .ok rest1 => .ok ((k, v1) :: rest1)
end

mutual
/-- Structural size of a JSON value (an executable recursion bound). -/
def jsonSize : Json → ℕ
  | .arr elems => jsonSizeList elems + 1
  | .obj fields => jsonSizeFields fields + 1
  | _ => 1

/-- Structural size of a list of JSON values. -/
def jsonSizeList : List Json → ℕ
  | [] => 1
  | x :: xs => jsonSize x + jsonSizeList xs + 1

/-- Structural size of object fields. -/
def jsonSizeFields : List (String × Json) → ℕ
  | [] => 1
  | f :: fs => jsonSize f.2 + jsonSizeFields fs + 1
end

/-- gemini.util.ts `processJsonSchema`.  The recursion bound
`2 * jsonSize js + 2` strictly dominates the recursion depth on every
input, so the fuel never runs out and the wrapper computes exactly the
source function. -/
def processJsonSchema (js : Json) : Except String Json :=
  processJsonSchemaFuel (2 * jsonSize js + 2) js

/-- gemini.util.ts `tTool`, body of the loop over `functionDeclarations`:
`parameters` without a `$schema` key is run through `processJsonSchema`
in place; with a `$schema` key it is moved to `parametersJsonSchema`
(unless that field is already truthy) and deleted.  The same rule applies
to `response` / `responseJsonSchema`. -/
def tFunctionDeclaration (fd : Json) : Except String Json := do
  let fd1 ←
    if jTruthy (jGet fd "parameters") then
      if !((jKeys (jGet fd "parameters")).contains "$schema") then do
        let p ← processJsonSchema (jGet fd "parameters")
        pure (jSet fd "parameters" p)
      else
        if !jTruthy (jGet fd "parametersJsonSchema") then
          pure (jDelete (jSet fd "parametersJsonSchema" (jGet fd "parameters")) "parameters")
        else pure fd
    else pure fd
  if jTruthy (jGet fd1 "response") then
    if !((jKeys (jGet fd1 "response")).contains "$schema") then do
      let r ← processJsonSchema (jGet fd1 "response")
      pure (jSet fd1 "response" r)
    else
      if !jTruthy (jGet fd1 "responseJsonSchema") then
        pure (jDelete (jSet fd1 "responseJsonSchema" (jGet fd1 "response")) "response")
      else pure fd1
  else pure fd1

/-- gemini.util.ts `tTool`: transform each entry of a truthy
`functionDeclarations` array in place (a truthy non-array would make the
JavaScript `for..of` throw). -/
def tTool (tool : Json) : Except String Json :=
  if jTruthy (jGet tool "functionDeclarations") then
    match jGet tool "functionDeclarations" with
    | Json.arr decls =>
      match decls.mapM tFunctionDeclaration with
      | .error e => .error e
      | .ok decls1 => .ok (jSet tool "functionDeclarations" (Json.arr decls1))
    | _ => .error "TypeError: functionDeclarations is not iterable"
  else .ok tool

/-! ## Unified data model shared by the transformers -/

/-- A unified-level tool call, as produced by the OpenAI transformer:
`id` and `name` are passed through verbatim, `arguments` is always a
JSON-serialized string. -/
structure UToolCall where
  id : Json
  name : Json
  arguments : String

/-- A UnifiedMessage as the transformers handle it.  `content` is a JSON
value (string, array of parts, or anything else); `tool_call_id` is kept
verbatim (null models an absent field). -/
structure UnifiedMessage where
  role : String
  content : Json
  tool_calls : Option (List UToolCall) := none
  tool_call_id : Json := Json.null

/-- A UnifiedTool.  `fn` is the `{type:"function", function:{...}}` shape;
`legacy` is the `{name, description, input_schema}` shape produced by
`convertToolsToUnified` for non-function tools. -/
inductive UnifiedTool where
  | fn (name : Json) (description : Json) (parameters : Option Json)
  | legacy (name : Json) (description : Json) (input_schema : Json)

/-! ## Gemini request builder (gemini.util.ts `buildRequestBody`) -/

/-- Read `tool.function` of a UnifiedTool the way buildRequestBody does:
a legacy-shaped tool has no `function` object, so the property access
throws. -/
def unifiedToolFn (t : UnifiedTool) : Except String (Json × Json × Option Json) :=
  match t with
  | .fn n d p => .ok (n, d, p)
  | .legacy _ _ _ => .error "TypeError: tool.function is undefined"

/-- The `tool.function.name === "web_search"` comparison. -/
def isWebSearchName (j : Json) : Bool :=
  match j with
  | .str s => s == "web_search"
  | _ => false

/-- One entry of the `functionDeclarations` array built by
`buildRequestBody` (lines 337-343): the Unified `parameters` is placed
verbatim under `parametersJsonSchema`.  An absent `parameters` yields the
key with value null (JavaScript: the key holds `undefined`). -/
def geminiFunctionDeclaration (f : Json × Json × Option Json) : Json :=
  Json.obj [("name", f.1), ("description", f.2.1),
            ("parametersJsonSchema", (f.2.2).getD Json.null)]

/-- The `tools` array built by `buildRequestBody` (lines 334-358): the
non-`web_search` tools become one `{functionDeclarations}` object passed
through `tTool`, and a `web_search` tool appends `{googleSearch:{}}`. -/
def buildRequestBodyTools (tools : List UnifiedTool) : Except String (List Json) :=
  match tools.mapM unifiedToolFn with
  | .error e => .error e
  | .ok fns =>
    let decls := (fns.filter (fun f => !isWebSearchName f.1)).map geminiFunctionDeclaration
    let firstPart : Except String (List Json) :=
      if decls.isEmpty then .ok []
      else
        match tTool (Json.obj [("functionDeclarations", Json.arr decls)]) with
        | .error e => .error e
        | .ok t => .ok [t]
    match firstPart with
    | .error e => .error e
    | .ok l =>
      .ok (l ++ (if fns.any (fun f => isWebSearchName f.1)
                 then [Json.obj [("googleSearch", Json.obj [])]] else []))

/-! ## Loop detector (gemini.util.ts `detectToolLoops`) -/

/-- gemini.util.ts `EDIT_LOOP_ERROR_PATTERNS`. -/
def EDIT_LOOP_ERROR_PATTERNS : List String :=
  ["old_string and new_string are exactly the same", "No changes to make"]

/-- gemini.util.ts `ERROR_INDICATORS`. -/
def ERROR_INDICATORS : List String :=
  ["Error:", "Error ", "error:", "ENOENT", "EACCES", "EPERM", "failed",
   "FAILED", "not found", "Permission denied", "Operation not permitted"]

/-- The `EDIT_LOOP_ERROR_PATTERNS.some((p) => text.includes(p))` test of
`detectToolLoops`. -/
def matchesEditPattern (t : String) : Bool :=
  EDIT_LOOP_ERROR_PATTERNS.any (fun p => strContains t p)

/-- The `ERROR_INDICATORS.some((p) => text.includes(p))` test of
`detectToolLoops`. -/
def matchesErrorIndicator (t : String) : Bool :=
  ERROR_INDICATORS.any (fun p => strContains t p)

/-- The edit-tool hint literal returned on the edit-same-content loop. -/
def editLoopHint : String :=
  "IMPORTANT: Your last Edit/Update attempts failed because old_string and new_string were identical. The Edit tool requires old_string to exactly match existing file text, and new_string must be DIFFERENT from old_string. If you cannot express the change correctly with Edit, use the Write tool to replace the entire file contents instead."

/-- The generic hint literal returned on repeated tool errors. -/
def genericLoopHint : String :=
  "IMPORTANT: You appear to be encountering repeated tool errors. Stop retrying the same failing approach. Instead, try a DIFFERENT, non-destructive method to accomplish your goal. If you cannot find an approach that works, tell the user what you were trying to do and that you are unable to proceed — do not keep retrying the same operation."

/-- gemini.util.ts `getToolResultText`: string content verbatim; array
content joined with spaces over `.text` fields (`c.text || ""`; a truthy
non-string `text`, which JavaScript would coerce, is not exercised by any
claim and is modelled as the empty string); anything else yields "". -/
def getToolResultText (content : Json) : String :=
  match content with
  | .str s => s
  | .arr items =>
    String.intercalate " " (items.map (fun c =>
      match jGet c "text" with
      | .str t => t
      | _ => ""))
  | _ => ""

/-- The per-message classification of `detectToolLoops`: a `role:"tool"`
message whose text matches an edit-same-content pattern bumps the first
counter; only otherwise, one matching a generic error indicator bumps the
second. -/
def loopCountStep (acc : ℕ × ℕ) (msg : UnifiedMessage) : ℕ × ℕ :=
  if msg.role == "tool" then
    let text := getToolResultText msg.content
    if matchesEditPattern text then (acc.1 + 1, acc.2)
    else if matchesErrorIndicator text then (acc.1, acc.2 + 1)
    else acc
  else acc

/-- gemini.util.ts `detectToolLoops` (see `loopCountStep` for the loop
body): scan the last 20 messages, then return the edit hint at an
edit-same-content count ≥ 2, else the generic hint at a generic error
count ≥ 3, else null. -/
def detectToolLoops (messages : List UnifiedMessage) : Option String :=
  let recentMessages := messages.drop (messages.length - 20)
  let counts := recentMessages.foldl loopCountStep (0, 0)
  if 2 ≤ counts.1 then some editLoopHint
  else if 3 ≤ counts.2 then some genericLoopHint
  else none

/-! ## Gemini generation config (gemini.util.ts `buildRequestBody`, lines 483-532) -/

/-- The `reasoning` field of a UnifiedChatRequest. -/
structure UnifiedReasoning where
  effort : Option String := none
  max_tokens : Option ℚ := none

/-- The `generationConfig.thinkingConfig` object built for Gemini. -/
structure ThinkingConfig where
  includeThoughts : Bool
  thinkingLevel : Option String := none
  thinkingBudget : Option ℚ := none

/-- The `generationConfig` object built for Gemini. -/
structure GenerationConfig where
  temperature : Option ℚ := none
  thinkingConfig : Option ThinkingConfig := none

/-- The generationConfig portion of gemini.util.ts `buildRequestBody`:
gemini-3 models get `temperature = 1.0`; a truthy `reasoning.effort`
other than "none" yields a thinkingConfig — a `thinkingLevel` for
gemini-3 (HIGH/LOW on pro, HIGH/MEDIUM/LOW otherwise), and for other
models a `thinkingBudget` clamped into `[128, 32768]` when the model name
contains "pro" and `[0, 24576]` otherwise, set only when
`reasoning.max_tokens` is defined. -/
def buildRequestBodyGenerationConfig (model : String)
    (reasoning : Option UnifiedReasoning) : GenerationConfig :=
  let temp : Option ℚ := if strContains model "gemini-3" then some 1 else none
  let tc : Option ThinkingConfig :=
    match reasoning with
    | some r =>
      match r.effort with
      | some e =>
        if !(e == "") && !(e == "none") then
          some (
            if strContains model "gemini-3" then
              if strContains model "pro" then
                { includeThoughts := true,
                  thinkingLevel := some (if e == "high" then "HIGH" else "LOW") }
              else
                { includeThoughts := true,
                  thinkingLevel := some (if e == "high" then "HIGH"
                                         else if e == "medium" then "MEDIUM" else "LOW") }
            else
              let lo : ℚ := if strContains model "pro" then 128 else 0
              let hi : ℚ := if strContains model "pro" then 32768 else 24576
              match r.max_tokens with
              | some m =>
                { includeThoughts := true,
                  thinkingBudget := some (if lo ≤ m ∧ m ≤ hi then m
                                          else if m < lo then lo else hi) }
              | none => { includeThoughts := true })
        else none
      | none => none
    | none => none
  { temperature := temp, thinkingConfig := tc }

/-! ## Gemini response translator (gemini.util.ts `transformResponseOut`) -/

/-- A `functionCall` part payload. -/
structure GFunctionCall where
  id : Option String := none
  name : Option String := none
  args : Option Json := none

/-- One entry of `candidates[0].content.parts[]`. -/
structure GPart where
  text : Option String := none
  thought : Bool := false
  thoughtSignature : Option String := none
  functionCall : Option GFunctionCall := none

/-- JavaScript truthiness of an optional string field. -/
def optStrTruthy : Option String → Bool
  | none => false
  | some s => !(s == "")

/-- gemini.util.ts `getFinishReason`: lowercase the upstream finishReason
(JavaScript `|| null` turns an empty lowercased value into null) and
override "stop" with "tool_calls" when tool calls are present. -/
def getFinishReason (finishReason : Option String) (hasToolCalls : Bool) : Option String :=
  let reason : Option String :=
    match finishReason with
    | none => none
    | some s => if strLower s == "" then none else some (strLower s)
  if hasToolCalls && reason == some "stop" then some "tool_calls" else reason

/-- The unary path's partition (gemini.util.ts lines 729-735): parts with
truthy text and `thought === true` are thinking content; the rest are the
non-thinking parts. -/
def nonThinkingParts (parts : List GPart) : List GPart :=
  parts.filter (fun p => !(optStrTruthy p.text && p.thought))

/-- The unary path's extracted tool calls (gemini.util.ts lines 742-754):
non-thinking parts carrying a functionCall. -/
def unaryToolCalls (parts : List GPart) : List GFunctionCall :=
  (nonThinkingParts parts).filterMap (fun p => p.functionCall)

/-- The caller-facing `finish_reason` of the unary path (gemini.util.ts
line 766): `getFinishReason(candidates[0], tool_calls.length > 0)`. -/
def unaryFinishReason (parts : List GPart) (finishReason : Option String) : Option String :=
  getFinishReason finishReason (!(unaryToolCalls parts).isEmpty)

/-! ## Gemini streaming translator state machine (gemini.util.ts lines 815-1142) -/

/-- The mutable state of the streaming translator. -/
structure StreamState where
  signatureSent : Bool := false
  contentSent : Bool := false
  hasThinkingContent : Bool := false
  pendingContent : String := ""
  contentIndex : ℕ := 0
  toolCallIndex : ℤ := -1

/-- One parsed upstream SSE chunk (a `data:` line whose JSON parses and has
`candidates[0]`; chunks failing those checks are skipped by the translator
and are not modelled).  `nowMs` is the `Date.now()` timestamp used when a
signature is synthesized. -/
structure GChunk where
  modelVersion : Option String
  finishReason : Option String
  parts : List GPart
  nowMs : ℕ

/-- A caller-side delta emitted by the streaming translator, keeping the
fields the ordering claims are about.  For a tool call the source
synthesizes a random id when `fc.id` is absent; the random string is
abstracted away (no claim reads it). -/
inductive GDelta where
  | thinking (text : String) (index : ℕ)
  | signature (sig : String) (index : ℕ)
  | content (text : String) (finishReason : Option String) (index : ℕ)
  | toolCall (fc : GFunctionCall) (toolIndex : ℤ) (finishReason : Option String) (index : ℕ)

/-- The chunk's non-thinking text (gemini.util.ts lines 958-961): parts with
truthy text and `thought !== true`, joined with newlines. -/
def chunkTextContent (parts : List GPart) : String :=
  String.intercalate "\n"
    ((parts.filter (fun p => optStrTruthy p.text && !p.thought)).map (fun p => p.text.getD ""))

/-- The tool-call loop body of the streaming translator (gemini.util.ts
lines 1068-1137): each tool call increments `contentIndex` and
`toolCallIndex` and appends one tool-call delta. -/
def toolCallDeltaStep (fr : Option String) (acc : StreamState × List GDelta)
    (fc : GFunctionCall) : StreamState × List GDelta :=
  let s := acc.1
  let s1 := { s with contentIndex := s.contentIndex + 1, toolCallIndex := s.toolCallIndex + 1 }
  (s1, acc.2 ++ [GDelta.toolCall fc s1.toolCallIndex fr s1.contentIndex])

/-- The text-delta and tool-call-delta phase of one chunk (gemini.util.ts
lines 1001-1142; see `toolCallDeltaStep` for the tool-call loop body). -/
def stepTextAndTools (st : StreamState) (ch : GChunk) (textContent : String)
    (toolCalls : List GFunctionCall) : StreamState × List GDelta :=
  let p1 : StreamState × List GDelta :=
    if textContent == "" then (st, [])
    else
      let st1 := if st.pendingContent == "" then { st with contentIndex := st.contentIndex + 1 } else st
      ({ st1 with contentSent := true },
       [GDelta.content textContent (getFinishReason ch.finishReason (!toolCalls.isEmpty)) st1.contentIndex])
  toolCalls.foldl (toolCallDeltaStep (getFinishReason ch.finishReason true)) p1

/-- The thinking-delta phase of one chunk (gemini.util.ts lines 846-878):
each part with truthy text and `thought === true` emits one thinking delta
at the current `contentIndex` and marks `hasThinkingContent`. -/
def thinkingPhase (st : StreamState) (ch : GChunk) : StreamState × List GDelta :=
  let thinkingParts := ch.parts.filter (fun p => optStrTruthy p.text && p.thought)
  (if thinkingParts.isEmpty then st else { st with hasThinkingContent := true },
   thinkingParts.map (fun p => GDelta.thinking (p.text.getD "") st.contentIndex))

/-- The first truthy `thoughtSignature` among the chunk's parts
(gemini.util.ts lines 880-882). -/
def chunkSignature (parts : List GPart) : Option String :=
  (parts.find? (fun p => optStrTruthy p.thoughtSignature)).bind (fun p => p.thoughtSignature)

/-- The signature-delta phase of one chunk (gemini.util.ts lines 883-943):
an unseen signature emits the signature delta, marks `signatureSent`, bumps
`contentIndex` and flushes a non-empty `pendingContent` as a content
delta. -/
def signatureStep (st0 : StreamState) (sig : Option String) : StreamState × List GDelta :=
  match sig with
  | some s =>
    if st0.signatureSent then (st0, [])
    else
      let stA := { st0 with signatureSent := true, contentIndex := st0.contentIndex + 1 }
      if stA.pendingContent == "" then (stA, [GDelta.signature s st0.contentIndex])
      else
        ({ stA with pendingContent := "", contentSent := true },
         [GDelta.signature s st0.contentIndex,
          GDelta.content stA.pendingContent none stA.contentIndex])
  | none => (st0, [])

/-- The per-chunk transition of the streaming translator (the body of
`processLine`, gemini.util.ts lines 826-1152): (1) the thinking phase;
(2) the signature phase; (3) compute the chunk's tool calls and
non-thinking text; (4) with thinking content seen, non-empty text and no
signature sent, a gemini-3 `modelVersion` buffers the text into
`pendingContent` and aborts the chunk (an absent `modelVersion` makes the
source throw a TypeError that its catch swallows, likewise aborting the
chunk), while other models emit a synthesized `ccr_` signature delta;
(5)+(6) the text/tool-call phase `stepTextAndTools`. -/
def processChunk (st : StreamState) (ch : GChunk) : StreamState × List GDelta :=
  let t := thinkingPhase st ch
  let s2 := signatureStep t.1 (chunkSignature ch.parts)
  let st1 := s2.1
  let ds1 := t.2 ++ s2.2
  let toolCalls := ch.parts.filterMap (fun p => p.functionCall)
  let textContent := chunkTextContent ch.parts
  if st1.hasThinkingContent && !(textContent == "") && !st1.signatureSent then
    match ch.modelVersion with
    | none => (st1, ds1)
    | some mv =>
      if strContains mv "3" then
        ({ st1 with pendingContent := st1.pendingContent ++ textContent }, ds1)
      else
        let r := stepTextAndTools { st1 with signatureSent := true } ch textContent toolCalls
        (r.1, ds1 ++ [GDelta.signature ("ccr_" ++ toString ch.nowMs) st1.contentIndex] ++ r.2)
  else
    let r := stepTextAndTools st1 ch textContent toolCalls
    (r.1, ds1 ++ r.2)

/-- Run the streaming translator over a chunk sequence from a given state,
collecting the emitted deltas. -/
def processStreamAux (st : StreamState) : List GChunk → List GDelta
  | [] => []
  | c :: cs =>
    let r := processChunk st c
    r.2 ++ processStreamAux r.1 cs

/-- The caller-side delta sequence the streaming translator emits for one
request's upstream chunk sequence. -/
def processStream (chunks : List GChunk) : List GDelta :=
  processStreamAux {} chunks

/-- Whether a delta is a thinking.signature delta. -/
def isSignatureDelta : GDelta → Bool
  | .signature _ _ => true
  | _ => false

/-- Whether a delta is a text-content or tool-call delta. -/
def isContentOrToolDelta : GDelta → Bool
  | .content _ _ _ => true
  | .toolCall _ _ _ _ => true
  | _ => false

/-- Number of signature deltas in an emitted sequence. -/
def signatureDeltaCount (ds : List GDelta) : ℕ := ds.countP isSignatureDelta

/-- Claim C2's ordering property as stated: every signature delta precedes
every text-content delta and every tool-call delta of the sequence. -/
def signaturePrecedesAll (ds : List GDelta) : Bool :=
  ds.enum.all (fun p =>
    !isSignatureDelta p.2 ||
      ds.enum.all (fun q => !isContentOrToolDelta q.2 || decide (p.1 < q.1)))

/-! ## Suggestion-mode delay (gemini.util.ts lines 679-699, 706, 799-803, 1197-1204) -/

/-- The literal marker of a suggestion-mode request. -/
def suggestionMarker : String := "[SUGGESTION MODE:"

/-- gemini.util.ts `isSuggestionModeRequest`: true when a message of
`context.req.body.messages` has string content containing the marker, or
array content with a string `text` part containing it.  A non-array
`messages` (where JavaScript would throw inside the try) yields false. -/
def isSuggestionModeRequest (context : Json) : Bool :=
  match jGet (jGet (jGet context "req") "body") "messages" with
  | Json.arr msgs =>
    msgs.any (fun msg =>
      match jGet msg "content" with
      | Json.str s => strContains s suggestionMarker
      | Json.arr cs =>
        cs.any (fun c =>
          match jGet c "text" with
          | Json.str t => strContains t suggestionMarker
          | _ => false)
      | _ => false)
  | _ => false

/-- gemini.util.ts `SUGGESTION_MODE_DELAY_MS`. -/
def SUGGESTION_MODE_DELAY_MS : ℕ := 3000

/-- The delay gemini.util.ts `transformResponseOut` applies to its very
final flush (before returning the unary response, and before closing the
caller-facing stream), as a function of the context it received. -/
def finalFlushDelayMs (context : Json) : ℕ :=
  if isSuggestionModeRequest context then SUGGESTION_MODE_DELAY_MS else 0

/-- The delay actually applied through `GeminiTransformer.transformResponseOut`:
the transformer calls `transformResponseOut(response, this.name, this.logger)`
and omits the `context` argument, so the translator always sees an undefined
context. -/
def geminiTransformerFinalFlushDelayMs : ℕ := finalFlushDelayMs Json.null

/-! ## OpenAI transformer (openai.transformer.ts `transformRequestOut`) -/

/-- Shallow JSON serialization used where the transformer stringifies
values (`JSON.stringify`).  JavaScript number formatting and string
escaping are abstracted (no claim inspects a serialized value). -/
def jStringifyFuel : ℕ → Json → String
  | 0, _ => ""
  | _ + 1, .null => "null"
  | _ + 1, .bool b => if b then "true" else "false"
  | _ + 1, .num q => toString q
  | _ + 1, .str s => "\"" ++ s ++ "\""
  | fuel + 1, .arr xs =>
    "[" ++ String.intercalate "," (xs.map (fun x => jStringifyFuel fuel x)) ++ "]"
  | fuel + 1, .obj fs =>
    "\x7b" ++
      String.intercalate ","
        (fs.map (fun f => "\"" ++ f.1 ++ "\":" ++ jStringifyFuel fuel f.2)) ++
      "\x7d"

/-- Model of `JSON.stringify` (see `jStringifyFuel`; the bound dominates
the nesting depth of every input). -/
def jStringify (j : Json) : String := jStringifyFuel (jsonSize j) j

/-- The incoming Anthropic/OpenAI-shaped request, with the fields
`OpenAITransformer.transformRequestOut` reads.  `system` and `tool_choice`
are raw JSON (null models an absent field); `messages` and `tools` are raw
JSON values. -/
structure InRequest where
  system : Json := Json.null
  messages : List Json := []
  model : String := ""
  max_tokens : Option ℚ := none
  temperature : Option ℚ := none
  stream : Option Bool := none
  tools : Option (List Json) := none
  tool_choice : Json := Json.null

/-- The UnifiedChatRequest produced by `transformRequestOut` and consumed
by `OpenAICompatibleTransformer.transformRequestIn`. -/
structure UnifiedChatRequest where
  messages : List UnifiedMessage
  model : String
  max_tokens : Option ℚ
  temperature : Option ℚ
  stream : Option Bool
  tools : Option (List UnifiedTool)
  tool_choice : Json
  reasoning : Option UnifiedReasoning := none

/-- Whether `j.type === s` for a raw content part or tool. -/
def jTypeIs (j : Json) (s : String) : Bool :=
  match jGet j "type" with
  | .str t => t == s
  | _ => false

/-- openai.transformer.ts lines 31-52: flatten the top-level `system` into
a system-role UnifiedMessage — a truthy string verbatim, a non-empty array
reduced to its `{type:"text"}` parts with truthy text, re-emitted as
`{type, text, cache_control}` objects (an absent `cache_control` key holds
undefined, modelled as null). -/
def systemMessages (system : Json) : List UnifiedMessage :=
  match system with
  | .str s => if s == "" then [] else [{ role := "system", content := Json.str s }]
  | .arr items =>
    if items.isEmpty then []
    else
      let textParts := (items.filter (fun it => jTypeIs it "text" && jTruthy (jGet it "text"))).map
        (fun it => Json.obj [("type", Json.str "text"), ("text", jGet it "text"),
                             ("cache_control", jGet it "cache_control")])
      [{ role := "system", content := Json.arr textParts }]
  | _ => []

/-- The string value of a JSON value when it is a string (the unexercised
JavaScript coercion of non-strings is modelled as ""). -/
def jAsString : Json → String
  | .str s => s
  | _ => ""

/-- openai.transformer.ts lines 57-136: translate one raw message.  Roles
other than user/assistant/tool are dropped; string content passes through
(note: a tool message with string content keeps no `tool_call_id`); array
content is filtered per role (user), joined into a string plus extracted
tool_calls (assistant), or JSON-stringified (tool); any other content shape
drops the message. -/
def transformMessage (msg : Json) : List UnifiedMessage :=
  match jGet msg "role" with
  | .str r =>
    if r == "user" || r == "assistant" || r == "tool" then
      match jGet msg "content" with
      | .str s => [{ role := r, content := Json.str s }]
      | .arr cs =>
        if r == "user" then
          let parts := cs.filter (fun c =>
            (jTypeIs c "text" && jTruthy (jGet c "text")) ||
            (jTypeIs c "image_url" && jTruthy (jGet c "image_url")))
          if parts.isEmpty then [] else [{ role := "user", content := Json.arr parts }]
        else if r == "assistant" then
          let textParts := cs.filter (fun c => jTypeIs c "text" && jTruthy (jGet c "text"))
          let contentStr : Json :=
            if textParts.isEmpty then Json.str ""
            else Json.str (String.intercalate "\n" (textParts.map (fun c => jAsString (jGet c "text"))))
          let toolCallParts := cs.filter (fun c => jTypeIs c "tool_calls" && jTruthy (jGet c "tool_calls"))
          let tcs := toolCallParts.flatMap (fun part =>
            match jGet part "tool_calls" with
            | Json.arr ts =>
              ts.map (fun t =>
                UToolCall.mk (jGet t "id") (jGet (jGet t "function") "name")
                  (jStringify (let a := jGet (jGet t "function") "arguments"
                               if jTruthy a then a else Json.obj [])))
            | _ => [])
          [{ role := "assistant", content := contentStr,
             tool_calls := if toolCallParts.isEmpty then none else some tcs }]
        else
          [{ role := "tool", content := Json.str (jStringify (Json.arr cs)),
             tool_call_id := jGet msg "tool_call_id" }]
      | _ => []
    else []
  | _ => []

/-- openai.transformer.ts `convertToolsToUnified`: `{type:"function"}`
tools keep name/description/parameters (`description || ""`); everything
else becomes the legacy `{name, description, input_schema}` shape. -/
def convertToolsToUnified (tools : List Json) : List UnifiedTool :=
  tools.map (fun tool =>
    if jTypeIs tool "function" then
      UnifiedTool.fn (jGet (jGet tool "function") "name")
        (let d := jGet (jGet tool "function") "description"
         if jTruthy d then d else Json.str "")
        (match jGet (jGet tool "function") "parameters" with
         | Json.null => none
         | p => some p)
    else
      UnifiedTool.legacy (jGet tool "name")
        (let d := jGet tool "description"
         if jTruthy d then d else Json.str "")
        (jGet tool "input_schema"))

/-- openai.transformer.ts `transformRequestOut` (lines 23-155): flatten
`system`, translate the messages, and carry model, max_tokens,
temperature, stream, tools (converted when non-empty) and tool_choice. -/
def transformRequestOut (req : InRequest) : UnifiedChatRequest :=
  { messages := systemMessages req.system ++ req.messages.flatMap transformMessage
    model := req.model
    max_tokens := req.max_tokens
    temperature := req.temperature
    stream := req.stream
    tools :=
      match req.tools with
      | some ts => if ts.isEmpty then none else some (convertToolsToUnified ts)
      | none => none
    tool_choice := req.tool_choice }

/-! ## OpenAICompatible transformer (transformRequestIn / auth) -/

/-- The outgoing OpenAI wire request built by
`OpenAICompatibleTransformer.transformRequestIn`.  `tools` and
`tool_choice` are present only when set (max_tokens is deliberately not
forwarded by the source). -/
structure WireRequest where
  model : String
  messages : List Json
  temperature : Option ℚ
  stream : Option Bool
  tools : Option (List Json) := none
  tool_choice : Option Json := none

/-- The `$schema` stripping of `convertUnifiedToolsToOpenAI` (lines
327-337): copy `parameters`, delete its root `$schema` key, and delete the
property named `$schema` one level under `properties`. -/
def stripSchemaFromParameters (p : Json) : Json :=
  let p1 := jDelete p "$schema"
  if jTruthy (jGet p1 "properties") then
    jSet p1 "properties" (jDelete (jGet p1 "properties") "$schema")
  else p1

/-- `OpenAICompatibleTransformer.convertUnifiedToolsToOpenAI` (lines
312-343): function-shaped tools re-emit `{type, function:{name,
description || [], parameters?}}` with `$schema` stripped; a unified tool
without a `function` member becomes an empty object. -/
def convertUnifiedToolsToOpenAI (tools : List UnifiedTool) : List Json :=
  tools.map (fun tool =>
    match tool with
    | .fn name desc params =>
      let baseFn := [("name", name), ("description", if jTruthy desc then desc else Json.arr [])]
      let fnObj :=
        match params with
        | some p => if jTruthy p then Json.obj (baseFn ++ [("parameters", stripSchemaFromParameters p)])
                    else Json.obj baseFn
        | none => Json.obj baseFn
      Json.obj [("type", Json.str "function"), ("function", fnObj)]
    | .legacy _ _ _ => Json.obj [])

/-- `OpenAICompatibleTransformer.convertMessagesToOpenAI` (lines 345-378):
string content verbatim, array content with every `cache_control` field
removed, `tool_calls` re-emitted unchanged, truthy `tool_call_id` kept. -/
def convertMessagesToOpenAI (messages : List UnifiedMessage) : List Json :=
  messages.map (fun msg =>
    let contentFields :=
      match msg.content with
      | Json.str s => [("content", Json.str s)]
      | Json.arr items => [("content", Json.arr (items.map (fun it => jDelete it "cache_control")))]
      | _ => []
    let toolCallFields :=
      match msg.tool_calls with
      | some tcs =>
        [("tool_calls", Json.arr (tcs.map (fun t =>
          Json.obj [("id", t.id), ("type", Json.str "function"),
                    ("function", Json.obj [("name", t.name), ("arguments", Json.str t.arguments)])])))]
      | none => []
    let tcidFields := if jTruthy msg.tool_call_id then [("tool_call_id", msg.tool_call_id)] else []
    Json.obj ([("role", Json.str msg.role)] ++ contentFields ++ toolCallFields ++ tcidFields))

/-- `OpenAICompatibleTransformer.transformRequestIn` (lines 155-192). -/
def transformRequestIn (request : UnifiedChatRequest) : WireRequest :=
  { model := request.model
    messages := convertMessagesToOpenAI request.messages
    temperature := request.temperature
    stream := request.stream
    tools :=
      match request.tools with
      | some ts => if ts.isEmpty then none else some (convertUnifiedToolsToOpenAI ts)
      | none => none
    tool_choice := if jTruthy request.tool_choice then some request.tool_choice else none }

/-- The authorization header value `OpenAICompatibleTransformer.auth`
builds under Bearer auth (the default): a template literal around
`provider.apiKey.substring(0, 10)` followed by the literal `...`. -/
def authHeaderValue (apiKey : String) : String :=
  "Bearer " ++ strTake apiKey 10 ++ "..."

/-- The headers object `auth` returns: the authorization header under
Bearer auth (the default), no headers otherwise. -/
def authHeaders (useBearer : Bool) (apiKey : String) : List (String × String) :=
  if useBearer then [("authorization", authHeaderValue apiKey)] else []

/-! ## Spec-side definitions used to state the claims -/

/-- Whether a body detail carries a `quotaId` containing `"PerDay"`. -/
def detailHasPerDayQuota (d : BodyDetail) : Bool :=
  match d.quotaId with
  | some q => strContains q "PerDay"
  | none => false

/-- The `functionDeclarations` array of a built Gemini `tools[]` entry. -/
def builtFunctionDeclarations (toolJson : Json) : List Json :=
  match jGet toolJson "functionDeclarations" with
  | Json.arr l => l
  | _ => []

/-- Claim C3's rule exactly as worded: with tool calls present and an
upstream finishReason lowercasing to "stop", emit "tool_calls"; otherwise
the lowercase of the upstream finishReason, or null only when absent. -/
def specFinishReasonLiteral (parts : List GPart) (finishReason : Option String) : Option String :=
  if !(unaryToolCalls parts).isEmpty && finishReason.map strLower == some "stop" then
    some "tool_calls"
  else finishReason.map strLower

/-- Claim C8's rule exactly as worded: the texts of the `role:"tool"`
messages among the last 20 messages. -/
def toolMessageTexts (messages : List UnifiedMessage) : List String :=
  ((messages.drop (messages.length - 20)).filter (fun m => m.role == "tool")).map
    (fun m => getToolResultText m.content)

/-- Claim C8 exactly as worded: at least 2 of the tool-message texts
matching an edit-same-content pattern give the edit hint; otherwise at
least 3 matching a generic-error indicator give the generic hint;
otherwise null. -/
def claimDetectToolLoops (messages : List UnifiedMessage) : Option String :=
  let texts := toolMessageTexts messages
  if 2 ≤ texts.countP matchesEditPattern then some editLoopHint
  else if 3 ≤ texts.countP matchesErrorIndicator then some genericLoopHint
  else none

/-- Claim C8 as amended: a text matching an edit-same-content pattern is
not counted toward the generic-error tally (the source classifies each
message exclusively, edit-same-content first). -/
def amendedDetectToolLoops (messages : List UnifiedMessage) : Option String :=
  let texts := toolMessageTexts messages
  if 2 ≤ texts.countP matchesEditPattern then some editLoopHint
  else if 3 ≤ texts.countP (fun t => !matchesEditPattern t && matchesErrorIndicator t) then
    some genericLoopHint
  else none

/-- An original caller message with a role and plain string content, as
raw JSON (used to state the C6 round trip). -/
def mkSimpleMsg (rc : String × String) : Json :=
  Json.obj [("role", Json.str rc.1), ("content", Json.str rc.2)]

/-- An original `{type:"function"}` tool with name, description and
parameters, as raw JSON (used to state the C6 round trip). -/
def mkFnToolJson (t : String × String × Json) : Json :=
  Json.obj [("type", Json.str "function"),
            ("function", Json.obj [("name", Json.str t.1), ("description", Json.str t.2.1),
                                   ("parameters", t.2.2)])]

/-- The same tool after the `$schema` stripping C6 allows. -/
def mkStrippedFnToolJson (t : String × String × Json) : Json :=
  Json.obj [("type", Json.str "function"),
            ("function", Json.obj [("name", Json.str t.1), ("description", Json.str t.2.1),
                                   ("parameters", stripSchemaFromParameters t.2.2)])]

/-! ## Helper lemmas -/

theorem bodyRetryStep_quota_mono (acc : BodyRetryInfo) (d : BodyDetail)
    (h : acc.isDailyQuota = true) : (bodyRetryStep acc d).isDailyQuota = true := by
  obtain ⟨rd, qid⟩ := d
  unfold bodyRetryStep
  cases qid <;> cases rd <;> dsimp only <;>
    repeat (first | split | simp_all | rfl)

theorem bodyRetryStep_quota_set (acc : BodyRetryInfo) (d : BodyDetail)
    (h : detailHasPerDayQuota d = true) : (bodyRetryStep acc d).isDailyQuota = true := by
  obtain ⟨rd, qid⟩ := d
  unfold detailHasPerDayQuota at h
  unfold bodyRetryStep
  cases qid <;> cases rd <;> dsimp only <;>
    repeat (first | split | simp_all | rfl)

theorem foldl_bodyRetryStep_quota_mono (details : List BodyDetail) (acc : BodyRetryInfo)
    (h : acc.isDailyQuota = true) :
    ((details.foldl bodyRetryStep acc).isDailyQuota) = true := by
  induction details generalizing acc with
  | nil => simpa using h
  | cons d rest ih => exact ih _ (bodyRetryStep_quota_mono acc d h)

theorem parseBodyRetryInfo_quota_of_any (ds : List BodyDetail)
    (h : ds.any detailHasPerDayQuota = true) :
    (parseBodyRetryInfo (some ds)).isDailyQuota = true := by
  unfold parseBodyRetryInfo
  have : ∀ acc : BodyRetryInfo, ((ds.foldl bodyRetryStep acc).isDailyQuota) = true := by
    induction ds with
    | nil => simp at h
    | cons d rest ih =>
      intro acc
      rcases List.any_eq_true.mp h with ⟨x, hx, hpx⟩
      rcases List.mem_cons.mp hx with rfl | hxx
      · exact foldl_bodyRetryStep_quota_mono rest _ (bodyRetryStep_quota_set acc x hpx)
      · exact ih (List.any_eq_true.mpr ⟨x, hxx, hpx⟩) _
  exact this _

/-! ## Claim C4 -/

/-- C4: whenever the retry loop of `sendUnifiedRequest` receives, on a
non-streaming call, a 429 response whose parsed body carries an
`error.details[]` entry with a `metadata.quotaId` containing "PerDay", the
engine performs zero further fetch attempts and returns a response with
the same 429 status and the drained body intact. -/
theorem C4_theorem (attempt : ℕ) (lastResp : Option EngResponse) (bodyMs : Option ℚ)
    (r : EngResponse) (rest : List FetchOutcome) (rands : List ℚ) (ds : List BodyDetail)
    (hstatus : r.status = 429)
    (hbody : r.body = some ds)
    (hquota : ds.any detailHasPerDayQuota = true) :
    (engineLoop false attempt lastResp bodyMs (FetchOutcome.resp r :: rest) rands).outcome =
        EngineOutcome.returned 429 r.body ∧
    (engineLoop false attempt lastResp bodyMs (FetchOutcome.resp r :: rest) rands).fetches = 1 := by
  have hok : respOk r = false := by simp [respOk, hstatus]
  have hretry : isRetryableStatus r.status = true := by simp [isRetryableStatus, hstatus]
  have hq : (parseBodyRetryInfo r.body).isDailyQuota = true := by
    rw [hbody]; exact parseBodyRetryInfo_quota_of_any ds hquota
  by_cases ha : attempt = MAX_RETRIES <;>
    simp [engineLoop, hok, hretry, hq, ha, hstatus]

/-- Witness for C4 at a concrete daily-quota 429 received on the first
attempt. -/
theorem C4_witness :
    (engineLoop false 0 none none
        [FetchOutcome.resp ⟨429, RetryAfterValue.absent,
            some [⟨none, some "GenerateRequestsPerDayPerProjectPerModel"⟩]⟩] []).outcome =
      EngineOutcome.returned 429 (some [⟨none, some "GenerateRequestsPerDayPerProjectPerModel"⟩]) ∧
    (engineLoop false 0 none none
        [FetchOutcome.resp ⟨429, RetryAfterValue.absent,
            some [⟨none, some "GenerateRequestsPerDayPerProjectPerModel"⟩]⟩] []).fetches = 1 :=
  C4_theorem 0 none none
    ⟨429, RetryAfterValue.absent, some [⟨none, some "GenerateRequestsPerDayPerProjectPerModel"⟩]⟩
    [] [] [⟨none, some "GenerateRequestsPerDayPerProjectPerModel"⟩] rfl rfl (by decide)

/-! ## Claim C7 -/

/-- C7 (code bug exhibit): `isSuggestionModeRequest` does detect the
"[SUGGESTION MODE:" marker when given a request context, but
`GeminiTransformer.transformResponseOut` calls the translator without the
context argument, so the final-flush delay applied through the transformer
is 0 rather than 3000 ms, for marker requests and non-marker requests
alike. -/
theorem C7_code_bug :
    isSuggestionModeRequest
        (Json.obj [("req", Json.obj [("body", Json.obj [("messages",
            Json.arr [Json.obj [("content",
                Json.str "complete this: [SUGGESTION MODE: short]")]])])])]) = true ∧
    finalFlushDelayMs
        (Json.obj [("req", Json.obj [("body", Json.obj [("messages",
            Json.arr [Json.obj [("content",
                Json.str "complete this: [SUGGESTION MODE: short]")]])])])]) =
      SUGGESTION_MODE_DELAY_MS ∧
    geminiTransformerFinalFlushDelayMs = 0 := by
  decide

/-! ## Claim C3 -/

/-- C3 (counterexample to the claim as stated): on an upstream
`finishReason` that is the empty string, the code's `|| null` coalescing
yields null while the claim prescribes the lowercase of the upstream value
(the empty string), since the value is not absent. -/
theorem C3_counterexample :
    unaryFinishReason [] (some "") = none ∧
    specFinishReasonLiteral [] (some "") = some "" ∧
    unaryFinishReason [] (some "") ≠ specFinishReasonLiteral [] (some "") := by
  decide

/-- C3 as amended: with tool calls extracted and an upstream finishReason
lowercasing to "stop", the unary path reports "tool_calls"; otherwise it
reports the lowercase of the upstream finishReason, with an absent or
empty finishReason reported as null. -/
theorem C3_amended (parts : List GPart) (fr : Option String) :
    (((unaryToolCalls parts).isEmpty = false ∧ fr.map strLower = some "stop") →
        unaryFinishReason parts fr = some "tool_calls") ∧
    (¬((unaryToolCalls parts).isEmpty = false ∧ fr.map strLower = some "stop") →
        unaryFinishReason parts fr =
          (match fr with
           | none => none
           | some s => if strLower s = "" then none else some (strLower s))) := by
  constructor
  · rintro ⟨h1, h2⟩
    cases fr with
    | none => simp at h2
    | some s =>
      simp only [Option.map_some'] at h2
      rw [Option.some_inj] at h2
      simp [unaryFinishReason, getFinishReason, h1, h2]
  · intro h
    by_cases he : (unaryToolCalls parts).isEmpty
    · cases fr with
      | none => simp [unaryFinishReason, getFinishReason, he]
      | some s => simp [unaryFinishReason, getFinishReason, he]
    · have h2 : ¬(fr.map strLower = some "stop") := by
        intro hx
        exact h ⟨by simpa using he, hx⟩
      cases fr with
      | none => simp [unaryFinishReason, getFinishReason]
      | some s =>
        have h3 : ¬(strLower s = "stop") := by
          intro hx
          exact h2 (by simp [hx])
        by_cases h4 : strLower s = ""
        · simp [unaryFinishReason, getFinishReason, h4]
        · simp [unaryFinishReason, getFinishReason, h4, h3]

/-- Witness for C3 as amended: one functionCall part and upstream "STOP"
give "tool_calls"; no tool calls and upstream "MAX_TOKENS" pass the
lowercase through. -/
theorem C3_witness :
    unaryFinishReason [{ functionCall := some {} }] (some "STOP") = some "tool_calls" ∧
    unaryFinishReason [] (some "MAX_TOKENS") = some "max_tokens" := by
  constructor
  · exact (C3_amended [{ functionCall := some {} }] (some "STOP")).1 (by constructor <;> decide)
  · have h := (C3_amended [] (some "MAX_TOKENS")).2 (by decide)
    simpa using h

/-! ## Claim C9 -/

/-- C9: for a model not containing "gemini-3", reasoning effort low,
medium or high, and a defined `reasoning.max_tokens`, the built
`generationConfig.thinkingConfig.thinkingBudget` is max_tokens clamped
into [128, 32768] when the model name contains "pro" and [0, 24576]
otherwise: values below the minimum become the minimum, values above the
maximum become the maximum, values in range pass through unchanged. -/
theorem C9_theorem (model e : String) (m : ℚ)
    (hmodel : strContains model "gemini-3" = false)
    (heff : e = "low" ∨ e = "medium" ∨ e = "high") :
    (buildRequestBodyGenerationConfig model (some ⟨some e, some m⟩)).thinkingConfig =
      some { includeThoughts := true, thinkingLevel := none,
             thinkingBudget := some
               (if m < (if strContains model "pro" then (128 : ℚ) else 0) then
                  (if strContains model "pro" then (128 : ℚ) else 0)
                else if (if strContains model "pro" then (32768 : ℚ) else 24576) < m then
                  (if strContains model "pro" then (32768 : ℚ) else 24576)
                else m) } := by
  have he1 : (e == "") = false := by rcases heff with h | h | h <;> subst h <;> decide
  have he2 : (e == "none") = false := by rcases heff with h | h | h <;> subst h <;> decide
  simp only [buildRequestBodyGenerationConfig, hmodel, he1, he2, Bool.false_eq_true,
    if_false, Bool.not_false, Bool.and_self, if_true]
  cases hpro : strContains model "pro" <;>
    simp only [hpro, if_true, if_false, Bool.false_eq_true, Option.some.injEq,
      ThinkingConfig.mk.injEq, true_and, and_true] <;>
    (split_ifs <;> first | rfl | linarith | simp_all)

/-- Witness for C9: a non-pro, non-gemini-3 model with effort "low" and
max_tokens 99999 clamps the thinking budget to 24576. -/
theorem C9_witness :
    (buildRequestBodyGenerationConfig "gemini-2.5-flash"
        (some ⟨some "low", some 99999⟩)).thinkingConfig =
      some { includeThoughts := true, thinkingLevel := none, thinkingBudget := some 24576 } := by
  rw [C9_theorem ("gemini-2.5-flash") "low" 99999 (by decide) (Or.inl rfl)]
  rfl

/-! ## Claim C10 -/

/-- C10 (counterexample to the claim as stated): the authorization header
is built from only the first 10 characters plus "...", yet for the
11-character key "abcdefghij." the full key reappears verbatim inside the
header, so "the full key is never placed in the outgoing authorization
header" fails as a universal statement. -/
theorem C10_counterexample :
    10 < ("abcdefghij.").length ∧
    authHeaderValue "abcdefghij." = "Bearer abcdefghij..." ∧
    strContains (authHeaderValue "abcdefghij.") "abcdefghij." = true := by
  refine ⟨by decide, rfl, by decide⟩

/-- C10 as amended: under Bearer auth the authorization header always
equals "Bearer " plus the first 10 key characters plus "...", and it
depends only on those first 10 characters, so characters of the key beyond
the 10th never reach the header; the header also differs from
"Bearer " + key for every key longer than 10 characters whose remainder is
not itself the string "...". -/
theorem C10_amended :
    (∀ k : String, authHeaders true k =
        [("authorization", "Bearer " ++ strTake k 10 ++ "...")]) ∧
    (∀ k1 k2 : String, strTake k1 10 = strTake k2 10 →
        authHeaderValue k1 = authHeaderValue k2) ∧
    (∀ k : String, 10 < k.length → strDrop k 10 ≠ "..." →
        authHeaderValue k ≠ "Bearer " ++ k) := by
  refine ⟨fun k => rfl, fun k1 k2 h => by simp [authHeaderValue, h], ?_⟩
  intro k hlen hdrop heq
  apply hdrop
  have hdata := congrArg String.data heq
  simp only [authHeaderValue, String.data_append, strTake, List.append_assoc] at hdata
  have h2 := List.append_cancel_left hdata
  have h3 : k.data.take 10 ++ ("..." : String).data = k.data.take 10 ++ k.data.drop 10 := by
    rw [h2]
    exact (List.take_append_drop 10 k.data).symm
  have h4 := List.append_cancel_left h3
  unfold strDrop
  exact congrArg String.mk h4.symm

/-- Witness for C10 as amended: two keys agreeing on their first 10
characters produce identical headers, and a key whose tail is not "..."
never equals the header remainder. -/
theorem C10_amended_witness :
    authHeaderValue "aaaaaaaaaaXXXX" = authHeaderValue "aaaaaaaaaaYY" ∧
    authHeaderValue "abcdefghijk" ≠ "Bearer " ++ "abcdefghijk" :=
  ⟨C10_amended.2.1 "aaaaaaaaaaXXXX" "aaaaaaaaaaYY" (by decide),
   C10_amended.2.2 "abcdefghijk" (by decide) (by decide)⟩

/-! ## Claim C8 -/

set_option maxRecDepth 8192 in
/-- C8 (counterexample to the claim as stated): one tool message matching
both an edit-same-content pattern and a generic error indicator plus two
matching only the indicator make 3 indicator matches, so the claim
prescribes the generic hint; the source classifies the first message
exclusively as edit-same-content (count 1 < 2) and counts only 2 generic
errors, returning null. -/
theorem C8_counterexample :
    detectToolLoops
        [⟨"tool", Json.str "No changes to make. Error: duplicate", none, Json.null⟩,
         ⟨"tool", Json.str "Error: cannot open file", none, Json.null⟩,
         ⟨"tool", Json.str "Error: cannot open file", none, Json.null⟩] = none ∧
    claimDetectToolLoops
        [⟨"tool", Json.str "No changes to make. Error: duplicate", none, Json.null⟩,
         ⟨"tool", Json.str "Error: cannot open file", none, Json.null⟩,
         ⟨"tool", Json.str "Error: cannot open file", none, Json.null⟩] = some genericLoopHint ∧
    (none : Option String) ≠ some genericLoopHint := by
  refine ⟨by decide, by decide, by decide⟩

theorem foldl_loopCountStep (l : List UnifiedMessage) (acc : ℕ × ℕ) :
    l.foldl loopCountStep acc =
      (acc.1 + ((l.filter (fun m => m.role == "tool")).map
          (fun m => getToolResultText m.content)).countP matchesEditPattern,
       acc.2 + ((l.filter (fun m => m.role == "tool")).map
          (fun m => getToolResultText m.content)).countP
          (fun t => !matchesEditPattern t && matchesErrorIndicator t)) := by
  induction l generalizing acc with
  | nil => simp
  | cons m rest ih =>
    rw [List.foldl_cons, ih]
    unfold loopCountStep
    by_cases hr : (m.role == "tool") = true
    · by_cases he : matchesEditPattern (getToolResultText m.content) = true
      · simp [hr, he, List.filter_cons, List.map_cons, List.countP_cons, Prod.ext_iff]
        omega
      · by_cases hg : matchesErrorIndicator (getToolResultText m.content) = true
        · simp [hr, he, hg, List.filter_cons, List.map_cons, List.countP_cons, Prod.ext_iff]
          omega
        · simp [hr, he, hg, List.filter_cons, List.map_cons, List.countP_cons, Prod.ext_iff]
    · simp [hr]

/-- C8 as amended: `detectToolLoops` inspects only the last 20 messages
and classifies each tool message exclusively — a text matching an
edit-same-content pattern is not counted toward the generic tally; it
returns the edit hint at ≥ 2 edit matches, else the generic hint at ≥ 3
exclusive indicator matches, else null. -/
theorem C8_amended (messages : List UnifiedMessage) :
    detectToolLoops messages = amendedDetectToolLoops messages := by
  simp only [detectToolLoops, amendedDetectToolLoops, toolMessageTexts,
    foldl_loopCountStep, Nat.zero_add]

/-! ## Claim C2 -/

theorem countP_sig_thinking_map (l : List GPart) (i : ℕ) :
    (l.map (fun p => GDelta.thinking (p.text.getD "") i)).countP isSignatureDelta = 0 := by
  induction l with
  | nil => rfl
  | cons p rest ih => simp [List.countP_cons, isSignatureDelta, ih]

theorem thinkingPhase_sig (st : StreamState) (ch : GChunk) :
    (thinkingPhase st ch).1.signatureSent = st.signatureSent ∧
    (thinkingPhase st ch).2.countP isSignatureDelta = 0 := by
  unfold thinkingPhase
  constructor
  · dsimp only
    split <;> rfl
  · exact countP_sig_thinking_map _ _

theorem signatureStep_sig (st0 : StreamState) (sig : Option String) :
    (signatureStep st0 sig).2.countP isSignatureDelta +
      cond (signatureStep st0 sig).1.signatureSent 0 1 ≤
      cond st0.signatureSent 0 1 := by
  unfold signatureStep
  cases sig with
  | none => simp
  | some s =>
    by_cases h : st0.signatureSent
    · simp [h]
    · by_cases hp : (st0.pendingContent == "") = true
      · simp [h, hp, isSignatureDelta, List.countP_cons]
      · simp [h, hp, isSignatureDelta, List.countP_cons]

theorem foldl_toolCallDeltaStep_sig (fr : Option String) (tcs : List GFunctionCall) :
    ∀ acc : StreamState × List GDelta,
      (tcs.foldl (toolCallDeltaStep fr) acc).2.countP isSignatureDelta =
        acc.2.countP isSignatureDelta ∧
      (tcs.foldl (toolCallDeltaStep fr) acc).1.signatureSent = acc.1.signatureSent := by
  induction tcs with
  | nil => intro acc; simp
  | cons fc rest ih =>
    intro acc
    rw [List.foldl_cons]
    have h := ih (toolCallDeltaStep fr acc fc)
    refine ⟨?_, ?_⟩
    · rw [h.1]
      simp [toolCallDeltaStep, List.countP_append, isSignatureDelta]
    · rw [h.2]
      simp [toolCallDeltaStep]

theorem stepTextAndTools_sig (st : StreamState) (ch : GChunk) (t : String)
    (tcs : List GFunctionCall) :
    (stepTextAndTools st ch t tcs).2.countP isSignatureDelta = 0 ∧
    (stepTextAndTools st ch t tcs).1.signatureSent = st.signatureSent := by
  unfold stepTextAndTools
  have h := foldl_toolCallDeltaStep_sig (getFinishReason ch.finishReason true) tcs
  by_cases ht : (t == "") = true
  · simp only [ht, if_true]
    have := h (st, [])
    simpa [isSignatureDelta] using this
  · simp only [ht, if_false, Bool.false_eq_true]
    by_cases hp : (st.pendingContent == "") = true
    · simp only [hp, if_true]
      have := h ({ { st with contentIndex := st.contentIndex + 1 } with contentSent := true },
        [GDelta.content t (getFinishReason ch.finishReason (!tcs.isEmpty))
          ({ st with contentIndex := st.contentIndex + 1 }).contentIndex])
      simpa [isSignatureDelta, List.countP_cons] using this
    · simp only [hp, if_false, Bool.false_eq_true]
      have := h ({ st with contentSent := true },
        [GDelta.content t (getFinishReason ch.finishReason (!tcs.isEmpty)) st.contentIndex])
      simpa [isSignatureDelta, List.countP_cons] using this

theorem processChunk_sig (st : StreamState) (ch : GChunk) :
    (processChunk st ch).2.countP isSignatureDelta +
      cond (processChunk st ch).1.signatureSent 0 1 ≤
      cond st.signatureSent 0 1 := by
  unfold processChunk
  have hT := thinkingPhase_sig st ch
  have hS := signatureStep_sig (thinkingPhase st ch).1 (chunkSignature ch.parts)
  rw [hT.1] at hS
  dsimp only
  by_cases hc : ((signatureStep (thinkingPhase st ch).1 (chunkSignature ch.parts)).1.hasThinkingContent &&
      !(chunkTextContent ch.parts == "") &&
      !(signatureStep (thinkingPhase st ch).1 (chunkSignature ch.parts)).1.signatureSent) = true
  · simp only [hc, if_true]
    have hsent : (signatureStep (thinkingPhase st ch).1 (chunkSignature ch.parts)).1.signatureSent = false := by
      cases hx : (signatureStep (thinkingPhase st ch).1 (chunkSignature ch.parts)).1.signatureSent
      · rfl
      · rw [hx] at hc
        simp at hc
    rw [hsent] at hS
    simp only [Bool.cond_false] at hS
    cases hm : ch.modelVersion with
    | none =>
      simp only [List.countP_append, hT.2, hsent, Bool.cond_false]
      omega
    | some mv =>
      by_cases h3 : strContains mv "3" = true
      · simp only [h3, if_true]
        simp only [List.countP_append, hT.2, hsent, Bool.cond_false]
        omega
      · simp only [h3, if_false, Bool.false_eq_true]
        have hR := stepTextAndTools_sig
          { (signatureStep (thinkingPhase st ch).1 (chunkSignature ch.parts)).1 with signatureSent := true }
          ch (chunkTextContent ch.parts) (ch.parts.filterMap (fun p => p.functionCall))
        simp only [List.countP_append, hT.2, hR.1, hR.2, Bool.cond_true,
          List.countP_cons, isSignatureDelta]
        simp
        omega
  · simp only [hc, if_false, Bool.false_eq_true]
    have hR := stepTextAndTools_sig
      (signatureStep (thinkingPhase st ch).1 (chunkSignature ch.parts)).1
      ch (chunkTextContent ch.parts) (ch.parts.filterMap (fun p => p.functionCall))
    simp only [List.countP_append, hT.2, hR.1, hR.2]
    omega

theorem processStreamAux_sig (chunks : List GChunk) :
    ∀ st : StreamState,
      (processStreamAux st chunks).countP isSignatureDelta ≤
        cond st.signatureSent 0 1 := by
  induction chunks with
  | nil => intro st; simp [processStreamAux]
  | cons c cs ih =>
    intro st
    have h1 := processChunk_sig st c
    have h2 := ih (processChunk st c).1
    simp only [processStreamAux, List.countP_append]
    omega

/-- C2 as amended: on every upstream chunk sequence of one request, the
streaming translator emits at most one thinking.signature delta.  (The
precedence half of the claim fails: see the counterexample.) -/
theorem C2_amended (chunks : List GChunk) :
    signatureDeltaCount (processStream chunks) ≤ 1 := by
  have h := processStreamAux_sig chunks {}
  simpa [processStream, signatureDeltaCount] using h

/-- C2 (counterexample to the claim as stated): a chunk carrying plain text
followed by a chunk carrying the thoughtSignature makes the translator emit
the content delta first and the signature delta after it, so the signature
delta does not precede every text-content delta. -/
theorem C2_counterexample :
    signatureDeltaCount (processStream
      [⟨some "gemini-pro", none, [{ text := some "Hello" }], 0⟩,
       ⟨some "gemini-pro", none, [{ thoughtSignature := some "sigA" }], 0⟩]) = 1 ∧
    signaturePrecedesAll (processStream
      [⟨some "gemini-pro", none, [{ text := some "Hello" }], 0⟩,
       ⟨some "gemini-pro", none, [{ thoughtSignature := some "sigA" }], 0⟩]) = false := by
  refine ⟨by decide, by decide⟩

/-! ## Claim C5 -/

theorem parseRetryAfter_ge (v : RetryAfterValue) (m : ℚ)
    (h : parseRetryAfter v = some m) : INITIAL_BACKOFF_MS ≤ m := by
  cases v with
  | absent => simp [parseRetryAfter] at h
  | unparseable => simp [parseRetryAfter] at h
  | seconds n =>
    simp [parseRetryAfter] at h
    rw [← h]
    exact le_max_left _ _
  | httpDate d =>
    simp [parseRetryAfter] at h
    rw [← h]
    exact le_max_left _ _

theorem bodyRetryStep_delay_ge (acc : BodyRetryInfo) (d : BodyDetail)
    (h : ∀ m, acc.delayMs = some m → INITIAL_BACKOFF_MS ≤ m) :
    ∀ m, (bodyRetryStep acc d).delayMs = some m → INITIAL_BACKOFF_MS ≤ m := by
  intro m hm
  obtain ⟨rd, qid⟩ := d
  unfold bodyRetryStep at hm
  dsimp only at hm
  cases qid <;> cases rd <;> dsimp only at hm
  · exact h m hm
  · split at hm
    · simp only [Option.some.injEq] at hm
      rw [← hm]
      exact le_max_left _ _
    · exact h m hm
  · split at hm <;> exact h m hm
  · split at hm <;> split at hm <;>
      first
        | (simp only [Option.some.injEq] at hm; rw [← hm]; exact le_max_left _ _)
        | exact h m hm

theorem parseBodyRetryInfo_delay_ge (body : GeminiErrorBody) :
    ∀ m, (parseBodyRetryInfo body).delayMs = some m → INITIAL_BACKOFF_MS ≤ m := by
  cases body with
  | none => intro m hm; simp [parseBodyRetryInfo] at hm
  | some ds =>
    unfold parseBodyRetryInfo
    have key : ∀ (l : List BodyDetail) (acc : BodyRetryInfo),
        (∀ m, acc.delayMs = some m → INITIAL_BACKOFF_MS ≤ m) →
        ∀ m, (l.foldl bodyRetryStep acc).delayMs = some m → INITIAL_BACKOFF_MS ≤ m := by
      intro l
      induction l with
      | nil => intro acc hacc; exact hacc
      | cons d rest ih =>
        intro acc hacc
        rw [List.foldl_cons]
        exact ih _ (bodyRetryStep_delay_ge acc d hacc)
    exact key ds ⟨none, false⟩ (by simp)

theorem chooseBaseBackoff_ge (h b : Option ℚ) (attempt : ℕ)
    (hh : ∀ m, h = some m → INITIAL_BACKOFF_MS ≤ m)
    (hb : ∀ m, b = some m → INITIAL_BACKOFF_MS ≤ m) :
    INITIAL_BACKOFF_MS ≤ chooseBaseBackoff h b attempt := by
  unfold chooseBaseBackoff
  cases h with
  | some x => exact hh x rfl
  | none =>
    cases b with
    | some y => exact hb y rfl
    | none =>
      dsimp only
      have h1 : (1 : ℚ) ≤ 2 ^ (attempt - 1) := by
        have h2 : (1 : ℕ) ≤ 2 ^ (attempt - 1) := Nat.one_le_two_pow
        exact_mod_cast h2
      unfold INITIAL_BACKOFF_MS
      nlinarith

theorem withJitter_bounds (base rand : ℚ) (hbase : INITIAL_BACKOFF_MS ≤ base)
    (hr0 : 0 ≤ rand) (hr1 : rand < 1) :
    (1000 : ℤ) ≤ withJitter base rand ∧ ((withJitter base rand : ℚ) ≤ 13/10 * base + 1/2) := by
  unfold INITIAL_BACKOFF_MS at hbase
  unfold withJitter jsRound
  constructor
  · apply Int.le_floor.mpr
    push_cast
    nlinarith
  · have hf := Int.floor_le (base + base * (1/10 + rand * (2/10)) + 1/2)
    have hx : base + base * (1/10 + rand * (2/10)) ≤ 13/10 * base := by nlinarith
    linarith

theorem engineLoop_sleeps (stream : Bool) (outcomes : List FetchOutcome) :
    ∀ (attempt : ℕ) (lastResp : Option EngResponse) (bodyMs : Option ℚ) (rands : List ℚ),
      (∀ q ∈ rands, 0 ≤ q ∧ q < 1) →
      (∀ m, bodyMs = some m → INITIAL_BACKOFF_MS ≤ m) →
      ∀ p ∈ (engineLoop stream attempt lastResp bodyMs outcomes rands).sleeps,
        INITIAL_BACKOFF_MS ≤ p.1 ∧ (1000 : ℤ) ≤ p.2 ∧ ((p.2 : ℚ) ≤ 13/10 * p.1 + 1/2) := by
  have hentry : ∀ (attempt : ℕ) (lastResp : Option EngResponse) (bodyMs : Option ℚ)
      (rands : List ℚ),
      (∀ q ∈ rands, 0 ≤ q ∧ q < 1) →
      (∀ m, bodyMs = some m → INITIAL_BACKOFF_MS ≤ m) →
      ∀ p ∈ (if attempt = 0 then ([] : List (ℚ × ℤ)) else
          [(chooseBaseBackoff
              (match lastResp with
               | some r => parseRetryAfter r.retryAfter
               | none => none) bodyMs attempt,
            withJitter
              (chooseBaseBackoff
                (match lastResp with
                 | some r => parseRetryAfter r.retryAfter
                 | none => none) bodyMs attempt) (rands.headD 0))]),
        INITIAL_BACKOFF_MS ≤ p.1 ∧ (1000 : ℤ) ≤ p.2 ∧ ((p.2 : ℚ) ≤ 13/10 * p.1 + 1/2) := by
    intro attempt lastResp bodyMs rands hrand hbody p hp
    by_cases ha : attempt = 0
    · simp [ha] at hp
    · simp only [ha, if_false] at hp
      rcases List.mem_singleton.mp hp with rfl
      clear hp
      have hhead : 0 ≤ rands.headD 0 ∧ rands.headD 0 < 1 := by
        cases rands with
        | nil => norm_num
        | cons q qs => exact hrand q (List.mem_cons_self q qs)
      have hbase : INITIAL_BACKOFF_MS ≤ chooseBaseBackoff
          (match lastResp with
           | some r => parseRetryAfter r.retryAfter
           | none => none) bodyMs attempt := by
        apply chooseBaseBackoff_ge
        · intro m hm
          cases lastResp with
          | none => simp at hm
          | some r => exact parseRetryAfter_ge _ _ hm
        · exact hbody
      have hw := withJitter_bounds _ (rands.headD 0) hbase hhead.1 hhead.2
      exact ⟨hbase, hw.1, hw.2⟩
  induction outcomes with
  | nil =>
    intro attempt lastResp bodyMs rands hrand hbody p hp
    unfold engineLoop at hp
    exact hentry attempt lastResp bodyMs rands hrand hbody p hp
  | cons o rest ih =>
    intro attempt lastResp bodyMs rands hrand hbody p hp
    have hrand1 : ∀ q ∈ (if attempt = 0 then rands else rands.tail), 0 ≤ q ∧ q < 1 := by
      intro q hq
      by_cases ha : attempt = 0
      · rw [ha] at hq; simp at hq; exact hrand q hq
      · simp only [ha, if_false] at hq
        exact hrand q (List.mem_of_mem_tail hq)
    unfold engineLoop at hp
    cases o with
    | netErr retryable =>
      dsimp only at hp
      split at hp
      · rcases List.mem_append.mp hp with hmem | hmem
        · exact hentry attempt lastResp bodyMs rands hrand hbody p hmem
        · exact ih (attempt + 1) none none _ hrand1 (by simp) p hmem
      · exact hentry attempt lastResp bodyMs rands hrand hbody p hp
    | resp r =>
      dsimp only at hp
      split at hp
      · exact hentry attempt lastResp bodyMs rands hrand hbody p hp
      · split at hp
        · exact hentry attempt lastResp bodyMs rands hrand hbody p hp
        · split at hp
          · exact hentry attempt lastResp bodyMs rands hrand hbody p hp
          · split at hp
            · exact hentry attempt lastResp bodyMs rands hrand hbody p hp
            · rcases List.mem_append.mp hp with hmem | hmem
              · exact hentry attempt lastResp bodyMs rands hrand hbody p hmem
              · exact ih (attempt + 1) (some r) (parseBodyRetryInfo r.body).delayMs _
                  hrand1 (parseBodyRetryInfo_delay_ge r.body) p hmem

/-- C5 as amended: the base delay of every retry follows the first-match
precedence Retry-After header, then body-derived retryDelay, then
`INITIAL_BACKOFF_MS * 2^(attempt-1)`; the slept delay is
`Math.round(base + uniform(10%,30%) * base)` and is never below 1000 ms;
the total wait of a run is at most the sum over retries of
`1.3 * base + 1/2` — the extra half millisecond per retry accounts for
rounding, without which the claimed bound `sum of 1.3 * base` fails (see
the counterexample). -/
theorem C5_amended (stream : Bool) (outcomes : List FetchOutcome) (rands : List ℚ)
    (hrand : ∀ q ∈ rands, 0 ≤ q ∧ q < 1) :
    (∀ (h : ℚ) (b : Option ℚ) (a : ℕ), chooseBaseBackoff (some h) b a = h) ∧
    (∀ (b : ℚ) (a : ℕ), chooseBaseBackoff none (some b) a = b) ∧
    (∀ a : ℕ, chooseBaseBackoff none none a = INITIAL_BACKOFF_MS * 2 ^ (a - 1)) ∧
    (∀ base rand : ℚ, withJitter base rand =
        jsRound (base + base * (1/10 + rand * (2/10)))) ∧
    (∀ p ∈ (sendUnifiedRequest stream outcomes rands).sleeps,
        INITIAL_BACKOFF_MS ≤ p.1 ∧ (1000 : ℤ) ≤ p.2 ∧ ((p.2 : ℚ) ≤ 13/10 * p.1 + 1/2)) ∧
    ((sendUnifiedRequest stream outcomes rands).sleeps.map (fun p => ((p.2 : ℤ) : ℚ))).sum ≤
      ((sendUnifiedRequest stream outcomes rands).sleeps.map (fun p => 13/10 * p.1 + 1/2)).sum := by
  have hmain := engineLoop_sleeps stream outcomes 0 none none rands hrand (by simp)
  refine ⟨fun h b a => rfl, fun b a => rfl, fun a => rfl, fun base rand => rfl, hmain, ?_⟩
  apply List.sum_le_sum
  intro p hp
  exact (hmain p hp).2.2

theorem engineRun1003_sleeps :
    (sendUnifiedRequest false
        [FetchOutcome.resp ⟨429, RetryAfterValue.absent, some [⟨some (1003/1000), none⟩]⟩,
         FetchOutcome.resp ⟨200, RetryAfterValue.absent, none⟩]
        [(9995/10000 : ℚ)]).sleeps = [((1003 : ℚ), (1304 : ℤ))] := by
  have hinfo : parseBodyRetryInfo (some [⟨some (1003/1000), none⟩]) =
      ⟨some 1003, false⟩ := by
    unfold parseBodyRetryInfo bodyRetryStep
    norm_num [INITIAL_BACKOFF_MS, max_def]
  simp only [sendUnifiedRequest, engineLoop, hinfo]
  norm_num [respOk, isRetryableStatus, MAX_RETRIES, parseRetryAfter, chooseBaseBackoff,
    INITIAL_BACKOFF_MS, withJitter, jsRound, List.headD]

/-- Witness for C5 as amended, at a run whose single retry has a
body-derived base of 1003 ms and a random draw of 0.9995: the slept delay
is 1304 ms, at least 1000 and at most 1.3 * 1003 + 1/2. -/
theorem C5_amended_witness :
    INITIAL_BACKOFF_MS ≤ (1003 : ℚ) ∧ (1000 : ℤ) ≤ 1304 ∧
      (((1304 : ℤ) : ℚ) ≤ 13/10 * 1003 + 1/2) :=
  (C5_amended false
      [FetchOutcome.resp ⟨429, RetryAfterValue.absent, some [⟨some (1003/1000), none⟩]⟩,
       FetchOutcome.resp ⟨200, RetryAfterValue.absent, none⟩]
      [(9995/10000 : ℚ)]
      (by
        intro q hq
        rcases List.mem_singleton.mp hq with rfl
        constructor <;> norm_num)).2.2.2.2.1 (1003, 1304)
    (by rw [engineRun1003_sleeps]; exact List.mem_singleton.mpr rfl)

/-- C5 (counterexample to the claim as stated): with a body-derived
retryDelay of 1.003 s (base 1003 ms) and a random draw of 0.9995,
`Math.round` pushes the slept delay to 1304 ms, exceeding
`1.3 * 1003 = 1303.9`, so the total wait of the run exceeds the claimed
bound `sum over retries of base_i * 1.3`. -/
theorem C5_counterexample :
    (sendUnifiedRequest false
        [FetchOutcome.resp ⟨429, RetryAfterValue.absent, some [⟨some (1003/1000), none⟩]⟩,
         FetchOutcome.resp ⟨200, RetryAfterValue.absent, none⟩]
        [(9995/10000 : ℚ)]).sleeps = [((1003 : ℚ), (1304 : ℤ))] ∧
    ¬(((sendUnifiedRequest false
        [FetchOutcome.resp ⟨429, RetryAfterValue.absent, some [⟨some (1003/1000), none⟩]⟩,
         FetchOutcome.resp ⟨200, RetryAfterValue.absent, none⟩]
        [(9995/10000 : ℚ)]).sleeps.map (fun p => ((p.2 : ℤ) : ℚ))).sum ≤
      ((sendUnifiedRequest false
        [FetchOutcome.resp ⟨429, RetryAfterValue.absent, some [⟨some (1003/1000), none⟩]⟩,
         FetchOutcome.resp ⟨200, RetryAfterValue.absent, none⟩]
        [(9995/10000 : ℚ)]).sleeps.map (fun p => 13/10 * p.1)).sum) := by
  refine ⟨engineRun1003_sleeps, ?_⟩
  rw [engineRun1003_sleeps]
  norm_num

/-! ## Claim C1 -/

theorem tFunctionDeclaration_decl (n d x : Json) :
    tFunctionDeclaration (Json.obj [("name", n), ("description", d),
      ("parametersJsonSchema", x)]) =
    Except.ok (Json.obj [("name", n), ("description", d), ("parametersJsonSchema", x)]) := rfl

theorem mapM_tFunctionDeclaration_id (decls : List Json)
    (hd : ∀ fd ∈ decls, tFunctionDeclaration fd = Except.ok fd) :
    decls.mapM tFunctionDeclaration = Except.ok decls := by
  induction decls with
  | nil => rfl
  | cons fd rest ih =>
    rw [List.mapM_cons]
    rw [hd fd (List.mem_cons_self fd rest)]
    rw [ih (fun x hx => hd x (List.mem_cons_of_mem fd hx))]
    rfl

theorem tTool_decls (decls : List Json)
    (hd : ∀ fd ∈ decls, tFunctionDeclaration fd = Except.ok fd) :
    tTool (Json.obj [("functionDeclarations", Json.arr decls)]) =
      Except.ok (Json.obj [("functionDeclarations", Json.arr decls)]) := by
  unfold tTool
  rw [show jGet (Json.obj [("functionDeclarations", Json.arr decls)]) "functionDeclarations" =
      Json.arr decls from rfl]
  have hcond : jTruthy (Json.arr decls) = true := rfl
  rw [if_pos hcond]
  dsimp only
  rw [mapM_tFunctionDeclaration_id decls hd]
  rfl

theorem mapM_unifiedToolFn (tools : List UnifiedTool)
    (hfn : ∀ t ∈ tools, ∃ n d p, t = UnifiedTool.fn n d p) :
    ∃ fns, tools.mapM unifiedToolFn = Except.ok fns ∧
      ∀ f ∈ fns, UnifiedTool.fn f.1 f.2.1 f.2.2 ∈ tools := by
  induction tools with
  | nil => exact ⟨[], rfl, by simp⟩
  | cons t rest ih =>
    obtain ⟨n, d, p, rfl⟩ := hfn t (List.mem_cons_self t rest)
    obtain ⟨fns, hfns, hmem⟩ := ih (fun x hx => hfn x (List.mem_cons_of_mem _ hx))
    refine ⟨(n, d, p) :: fns, ?_, ?_⟩
    · rw [List.mapM_cons]
      rw [show unifiedToolFn (UnifiedTool.fn n d p) = Except.ok (n, d, p) from rfl]
      rw [hfns]
      rfl
    · intro f hf
      rcases List.mem_cons.mp hf with rfl | hf
      · exact List.mem_cons_self _ _
      · exact List.mem_cons_of_mem _ (hmem f hf)

/-- C1 as amended: for every tools list of function definitions, the built
Gemini tools succeed and every `functionDeclarations[]` entry has no
`parameters` field at all (so no `$schema` key lives under `parameters`),
while its `parametersJsonSchema` field is some tool's Unified `parameters`
passed through verbatim — `tTool` leaves these declarations untouched, so a
`$schema` key inside the Unified parameters survives into the body (see the
counterexample). -/
theorem C1_amended (tools : List UnifiedTool)
    (hfn : ∀ t ∈ tools, ∃ n d p, t = UnifiedTool.fn n d p) :
    ∃ ts, buildRequestBodyTools tools = Except.ok ts ∧
      ∀ b ∈ ts, ∀ fd ∈ builtFunctionDeclarations b,
        jGet fd "parameters" = Json.null ∧
        ∃ n d p, UnifiedTool.fn n d p ∈ tools ∧
          fd = Json.obj [("name", n), ("description", d),
                         ("parametersJsonSchema", p.getD Json.null)] := by
  obtain ⟨fns, hfns, hmem⟩ := mapM_unifiedToolFn tools hfn
  unfold buildRequestBodyTools
  rw [hfns]
  set decls := (fns.filter (fun f => !isWebSearchName f.1)).map geminiFunctionDeclaration with hdecls
  have hdeclmem : ∀ fd ∈ decls, ∃ f, f ∈ fns ∧ fd = geminiFunctionDeclaration f := by
    intro fd hfd
    rw [hdecls] at hfd
    obtain ⟨f, hf, rfl⟩ := List.mem_map.mp hfd
    exact ⟨f, List.mem_of_mem_filter hf, rfl⟩
  have hprop : ∀ fd ∈ decls,
      jGet fd "parameters" = Json.null ∧
      ∃ n d p, UnifiedTool.fn n d p ∈ tools ∧
        fd = Json.obj [("name", n), ("description", d),
                       ("parametersJsonSchema", p.getD Json.null)] := by
    intro fd hfd
    obtain ⟨f, hf, rfl⟩ := hdeclmem fd hfd
    refine ⟨rfl, f.1, f.2.1, f.2.2, hmem f hf, rfl⟩
  by_cases hempty : decls.isEmpty
  · simp only [hempty, if_true]
    refine ⟨_, rfl, ?_⟩
    intro b hb fd hfd
    rcases List.mem_append.mp hb with hb1 | hb1
    · simp at hb1
    · split at hb1
      · rcases List.mem_singleton.mp hb1 with rfl
        simp [builtFunctionDeclarations, jGet] at hfd
      · simp at hb1
  · simp only [hempty, if_false, Bool.false_eq_true]
    have htt := tTool_decls decls (by
      intro fd hfd
      obtain ⟨f, hf, rfl⟩ := hdeclmem fd hfd
      exact tFunctionDeclaration_decl f.1 f.2.1 ((f.2.2).getD Json.null))
    rw [htt]
    refine ⟨_, rfl, ?_⟩
    intro b hb fd hfd
    rcases List.mem_append.mp hb with hb1 | hb1
    · rcases List.mem_singleton.mp hb1 with rfl
      have hfd2 : fd ∈ decls := by
        simpa [builtFunctionDeclarations, jGet] using hfd
      exact hprop fd hfd2
    · split at hb1
      · rcases List.mem_singleton.mp hb1 with rfl
        simp [builtFunctionDeclarations, jGet] at hfd
      · simp at hb1

/-- Witness for C1 as amended at a one-tool list whose parameters carry a
`$schema` key: the built declaration has no `parameters` field. -/
theorem C1_amended_witness :
    jGet (Json.obj [("name", Json.str "f"), ("description", Json.str "d"),
        ("parametersJsonSchema", Json.obj [("$schema", Json.str "s")])]) "parameters" =
      Json.null := by
  obtain ⟨ts, hts, hprop⟩ := C1_amended
    [UnifiedTool.fn (Json.str "f") (Json.str "d") (some (Json.obj [("$schema", Json.str "s")]))]
    (by
      intro t ht
      rcases List.mem_singleton.mp ht with rfl
      exact ⟨_, _, _, rfl⟩)
  have hcomp : buildRequestBodyTools
      [UnifiedTool.fn (Json.str "f") (Json.str "d") (some (Json.obj [("$schema", Json.str "s")]))] =
      Except.ok [Json.obj [("functionDeclarations", Json.arr
        [Json.obj [("name", Json.str "f"), ("description", Json.str "d"),
                   ("parametersJsonSchema", Json.obj [("$schema", Json.str "s")])]])]] := rfl
  rw [hcomp] at hts
  injection hts with h
  subst h
  exact (hprop _ (List.mem_singleton.mpr rfl) _ (List.mem_singleton.mpr rfl)).1

/-- C1 (counterexample to the claim as stated): a Unified tool whose
parameters carry a `$schema` key produces a Gemini body whose
`functionDeclarations[0].parametersJsonSchema` still contains `$schema` —
`buildRequestBody` moves the Unified `parameters` to
`parametersJsonSchema` before `tTool` runs, and `tTool` only inspects a
`parameters` field, which no longer exists. -/
theorem C1_counterexample :
    buildRequestBodyTools
        [UnifiedTool.fn (Json.str "f") (Json.str "d")
          (some (Json.obj [("$schema", Json.str "http://json-schema.org/draft-07/schema#"),
                           ("type", Json.str "object")]))] =
      Except.ok [Json.obj [("functionDeclarations", Json.arr
        [Json.obj [("name", Json.str "f"), ("description", Json.str "d"),
                   ("parametersJsonSchema",
                    Json.obj [("$schema", Json.str "http://json-schema.org/draft-07/schema#"),
                              ("type", Json.str "object")])]])]] ∧
    jContainsKey "$schema" (Json.obj [("functionDeclarations", Json.arr
        [Json.obj [("name", Json.str "f"), ("description", Json.str "d"),
                   ("parametersJsonSchema",
                    Json.obj [("$schema", Json.str "http://json-schema.org/draft-07/schema#"),
                              ("type", Json.str "object")])]])]) = true :=
  ⟨rfl, rfl⟩

/-! ## Claim C6 -/

theorem convertMessagesToOpenAI_append (a b : List UnifiedMessage) :
    convertMessagesToOpenAI (a ++ b) = convertMessagesToOpenAI a ++ convertMessagesToOpenAI b := by
  simp [convertMessagesToOpenAI]

theorem convertToolsToUnified_append (a b : List Json) :
    convertToolsToUnified (a ++ b) = convertToolsToUnified a ++ convertToolsToUnified b := by
  simp [convertToolsToUnified]

theorem convertUnifiedToolsToOpenAI_append (a b : List UnifiedTool) :
    convertUnifiedToolsToOpenAI (a ++ b) =
      convertUnifiedToolsToOpenAI a ++ convertUnifiedToolsToOpenAI b := by
  simp [convertUnifiedToolsToOpenAI]

theorem roundTripMsg (rc : String × String)
    (h : rc.1 = "user" ∨ rc.1 = "assistant" ∨ rc.1 = "tool") :
    convertMessagesToOpenAI (transformMessage (mkSimpleMsg rc)) = [mkSimpleMsg rc] := by
  obtain ⟨r, s⟩ := rc
  dsimp only at h
  rcases h with h | h | h <;> subst h <;> rfl

theorem roundTripMessages (msgs : List (String × String))
    (h : ∀ rc ∈ msgs, rc.1 = "user" ∨ rc.1 = "assistant" ∨ rc.1 = "tool") :
    convertMessagesToOpenAI ((msgs.map mkSimpleMsg).flatMap transformMessage) =
      msgs.map mkSimpleMsg := by
  induction msgs with
  | nil => rfl
  | cons rc rest ih =>
    rw [List.map_cons, List.flatMap_cons, convertMessagesToOpenAI_append,
        roundTripMsg rc (h rc (List.mem_cons_self rc rest)),
        ih (fun x hx => h x (List.mem_cons_of_mem rc hx))]
    rfl

theorem roundTripToolElem (n d : String) (fs : List (String × Json)) (hd : d ≠ "") :
    convertUnifiedToolsToOpenAI (convertToolsToUnified [mkFnToolJson (n, d, Json.obj fs)]) =
      [mkStrippedFnToolJson (n, d, Json.obj fs)] := by
  have hdt : (d == "") = false := beq_eq_false_iff_ne.mpr hd
  simp [convertToolsToUnified, convertUnifiedToolsToOpenAI, jTypeIs, jGet, jTruthy,
    mkFnToolJson, mkStrippedFnToolJson, hdt]

theorem roundTripTools (ts : List (String × String × Json))
    (hd : ∀ t ∈ ts, t.2.1 ≠ "") (hp : ∀ t ∈ ts, ∃ fs, t.2.2 = Json.obj fs) :
    convertUnifiedToolsToOpenAI (convertToolsToUnified (ts.map mkFnToolJson)) =
      ts.map mkStrippedFnToolJson := by
  induction ts with
  | nil => rfl
  | cons t rest ih =>
    obtain ⟨n, d, p⟩ := t
    obtain ⟨fs, hfs⟩ := hp _ (List.mem_cons_self _ _)
    dsimp only at hfs
    subst hfs
    have hdd : d ≠ "" := by
      have := hd _ (List.mem_cons_self _ _)
      simpa using this
    have hsplit : (((n, d, Json.obj fs) :: rest).map mkFnToolJson) =
        [mkFnToolJson (n, d, Json.obj fs)] ++ rest.map mkFnToolJson := rfl
    rw [hsplit, convertToolsToUnified_append, convertUnifiedToolsToOpenAI_append,
        roundTripToolElem n d fs hdd,
        ih (fun x hx => hd x (List.mem_cons_of_mem _ hx))
           (fun x hx => hp x (List.mem_cons_of_mem _ hx))]
    rfl

/-- C6 as amended: on the fragment the round trip really preserves — no
top-level `system`, messages with user/assistant/tool roles and plain
string contents, a non-empty tools list of `{type:"function"}` tools with
non-empty string descriptions and object-shaped parameters, and a truthy
`tool_choice` — composing `transformRequestOut` with `transformRequestIn`
returns the original messages verbatim and the original tools with
`$schema` stripped from parameters (root and one level under
`properties`), preserving model, temperature, stream and tool_choice.
Outside this fragment the claim fails: a message whose role is not
user/assistant/tool (e.g. `system`) is dropped from `messages` entirely
(see the counterexample), and a falsy-but-present `tool_choice` is
dropped. -/
theorem C6_amended (msgs : List (String × String)) (tools : List (String × String × Json))
    (temp : Option ℚ) (stream : Option Bool) (model : String) (tc : Json)
    (hroles : ∀ rc ∈ msgs, rc.1 = "user" ∨ rc.1 = "assistant" ∨ rc.1 = "tool")
    (hdesc : ∀ t ∈ tools, t.2.1 ≠ "")
    (hparams : ∀ t ∈ tools, ∃ fs, t.2.2 = Json.obj fs)
    (htools : tools ≠ [])
    (htc : jTruthy tc = true) :
    transformRequestIn (transformRequestOut
      { system := Json.null, messages := msgs.map mkSimpleMsg, model := model,
        max_tokens := none, temperature := temp, stream := stream,
        tools := some (tools.map mkFnToolJson), tool_choice := tc }) =
    { model := model, messages := msgs.map mkSimpleMsg, temperature := temp, stream := stream,
      tools := some (tools.map mkStrippedFnToolJson), tool_choice := some tc } := by
  have hne1 : (tools.map mkFnToolJson).isEmpty = false := by
    cases tools with
    | nil => exact absurd rfl htools
    | cons a l => rfl
  have hne2 : (convertToolsToUnified (tools.map mkFnToolJson)).isEmpty = false := by
    cases tools with
    | nil => exact absurd rfl htools
    | cons a l => rfl
  simp only [transformRequestIn, transformRequestOut, systemMessages, List.nil_append,
    hne1, hne2, Bool.false_eq_true, if_false, htc, if_true,
    roundTripMessages msgs hroles, roundTripTools tools hdesc hparams]

/-- Witness for C6 as amended at a one-message, one-tool request whose
tool parameters carry a root `$schema` key. -/
theorem C6_amended_witness :
    transformRequestIn (transformRequestOut
      { system := Json.null, messages := [mkSimpleMsg ("user", "hi")], model := "m",
        max_tokens := none, temperature := some 1, stream := some true,
        tools := some [mkFnToolJson ("t", "d",
          Json.obj [("$schema", Json.str "x"), ("type", Json.str "object")])],
        tool_choice := Json.str "auto" }) =
    { model := "m", messages := [mkSimpleMsg ("user", "hi")], temperature := some 1,
      stream := some true,
      tools := some [mkStrippedFnToolJson ("t", "d",
        Json.obj [("$schema", Json.str "x"), ("type", Json.str "object")])],
      tool_choice := some (Json.str "auto") } := by
  exact C6_amended [("user", "hi")]
    [("t", "d", Json.obj [("$schema", Json.str "x"), ("type", Json.str "object")])]
    (some 1) (some true) "m" (Json.str "auto")
    (fun rc hrc => by rcases List.mem_singleton.mp hrc with rfl; exact Or.inl rfl)
    (fun t ht => by rcases List.mem_singleton.mp ht with rfl; decide)
    (fun t ht => by rcases List.mem_singleton.mp ht with rfl; exact ⟨_, rfl⟩)
    (List.cons_ne_nil _ _)
    rfl

/-- C6 (counterexample to the claim as stated): the round trip does not
preserve `messages` for every request — `transformRequestOut` drops any
message whose role is not user/assistant/tool (openai.transformer.ts line
57), so a request containing a system-role entry in its `messages` list
comes back with that message gone, a divergence the claim's
cache_control/$schema provisos do not cover. -/
theorem C6_counterexample :
    (transformRequestIn (transformRequestOut
      { system := Json.null,
        messages := [Json.obj [("role", Json.str "system"), ("content", Json.str "be brief")]],
        model := "m", max_tokens := none, temperature := none, stream := none,
        tools := none, tool_choice := Json.null })).messages = [] ∧
    [Json.obj [("role", Json.str "system"), ("content", Json.str "be brief")]] ≠
      ([] : List Json) :=
  ⟨rfl, List.cons_ne_nil _ _⟩
